import Mathlib

/-!
# Supply-chain contract chaincode: embedding and verified properties

Shallow embedding of `supplyChainSmartContract.go`: the ledger is a map from keys to
stored byte strings, and every chaincode function is a pure function from the ledger (and
its arguments) to a result and the next ledger.

Conventions of the embedding.

* `GetState` and `PutState` are the calls of the chaincode stub on a ledger whose calls
  succeed (`err == nil`); the `err != nil` branches of the source are therefore not
  reachable and are left out.  An absent key reads as the empty byte string, and a
  `PutState` with an empty value removes the key, as in the stub.
* The source uses `strconv.ParseFloat(x, 64)` as a single value; the embedding takes the
  float64 result and drops the error, so a string that does not parse reads as `0`
  (and an out-of-range one as an infinity), which is what `ParseFloat` returns next to
  its error.
* The source compares and converts `[]byte` and `string` freely; both are `String` here.
* In `realize` the source declares `payment_2` inside the two branches and uses it after
  them.  The embedding declares it once for the function, with the zero value (no bytes)
  when neither branch is taken.
* `strconv` is modelled on exact arithmetic: `F64` is an IEEE 754 binary64 value,
  `ParseFloat` rounds the exact decimal value to the nearest float64 (ties to even),
  `F64.add` and `F64.sub` round the exact sum, and `FormatFloat` is the rendering
  `FormatFloat(x, 'g', 10, 64)`, ten significant digits rounded from the exact binary
  value.  Strings are read in the syntax of `strconv`: a decimal number, or a
  hexadecimal mantissa after `0x` with a binary exponent after `p`, in both cases with
  digit-separating underscores, or one of the names `inf`, `infinity` and `nan`.
-/

namespace SupplyChain

/-! ## float64 -/

/-- An IEEE 754 binary64 value: NaN, a signed infinity, or the finite value
`(-1)^neg * m * 2^e`.  The values produced below are canonical:
`m < 2^53`, `-1074 ≤ e ≤ 971`, and `2^52 ≤ m` unless `e = -1074`. -/
inductive F64 where
  | nan : F64
  | inf (neg : Bool) : F64
  | fin (neg : Bool) (m : Nat) (e : Int) : F64
  deriving DecidableEq, Repr

/-- Nearest integer to `n / d`, ties to even. -/
def roundHalfEven (n d : Nat) : Nat :=
  let k := n / d
  let r := n % d
  if 2 * r < d then k
  else if d < 2 * r then k + 1
  else if k % 2 = 0 then k else k + 1

/-- The fraction `p / (q * 2^e)` as a numerator and a denominator. -/
def scale2 (p q : Nat) (e : Int) : Nat × Nat :=
  if e < 0 then (p * 2 ^ (-e).toNat, q) else (p, q * 2 ^ e.toNat)

/-- Binary logarithm by halving, at most `fuel` times. -/
def log2Aux : Nat → Nat → Nat
  | 0, _ => 0
  | fuel + 1, n => if n < 2 then 0 else log2Aux fuel (n / 2) + 1

/-- The binary logarithm of `n`, rounded down (`0` for `n = 0`). -/
def log2 (n : Nat) : Nat := log2Aux n n

/-- The float64 nearest to `(-1)^neg * p / q` (round to nearest, ties to even;
overflow gives an infinity, underflow a subnormal or a signed zero). -/
def F64.ofFrac (neg : Bool) (p q : Nat) : F64 :=
  if p = 0 then F64.fin neg 0 (-1074)
  else
    let e1 : Int := (log2 p : Int) - (log2 q : Int) - 53
    let s1 := scale2 p q e1
    let e2 : Int := if s1.1 / s1.2 < 2 ^ 53 then e1 else e1 + 1
    let e3 : Int := if e2 < -1074 then -1074 else e2
    let s3 := scale2 p q e3
    let m := roundHalfEven s3.1 s3.2
    let m4 := if m = 2 ^ 53 then 2 ^ 52 else m
    let e4 : Int := if m = 2 ^ 53 then e3 + 1 else e3
    if 971 < e4 then F64.inf neg else F64.fin neg m4 e4

/-- The mantissa of a finite value as a signed integer. -/
def signedMant (neg : Bool) (m : Nat) : Int :=
  if neg then -(m : Int) else (m : Int)

/-- IEEE 754 addition, round to nearest even.  A zero operand leaves the other
operand as it is; two zeros, or an exact sum of zero, give a zero that is negative
only when both operands are. -/
def F64.add : F64 → F64 → F64
  | F64.nan, _ => F64.nan
  | _, F64.nan => F64.nan
  | F64.inf a, F64.inf b => if a = b then F64.inf a else F64.nan
  | F64.inf a, F64.fin _ _ _ => F64.inf a
  | F64.fin _ _ _, F64.inf b => F64.inf b
  | F64.fin n1 m1 e1, F64.fin n2 m2 e2 =>
    if m1 = 0 ∧ m2 = 0 then F64.fin (n1 && n2) 0 (-1074)
    else if m1 = 0 then F64.fin n2 m2 e2
    else if m2 = 0 then F64.fin n1 m1 e1
    else
    let emin : Int := if e1 ≤ e2 then e1 else e2
    let s : Int := signedMant n1 (m1 * 2 ^ (e1 - emin).toNat)
                 + signedMant n2 (m2 * 2 ^ (e2 - emin).toNat)
    if s = 0 then F64.fin (n1 && n2) 0 (-1074)
    else
      let f := scale2 s.natAbs 1 (-emin)
      F64.ofFrac (decide (s < 0)) f.1 f.2

/-- Sign change. -/
def F64.neg : F64 → F64
  | F64.nan => F64.nan
  | F64.inf a => F64.inf (!a)
  | F64.fin n m e => F64.fin (!n) m e

/-- IEEE 754 subtraction, round to nearest even. -/
def F64.sub (x y : F64) : F64 := F64.add x (F64.neg y)

/-! ## strconv.ParseFloat -/

/-- Whether the byte is a decimal digit. -/
def isDigit (c : Char) : Bool := decide (48 ≤ c.toNat) && decide (c.toNat ≤ 57)

/-- The value of a decimal digit. -/
def digitVal (c : Char) : Nat := c.toNat - 48

/-- Whether the byte is a hexadecimal letter, `a` to `f` in either case. -/
def isHexLetter (c : Char) : Bool :=
  (decide (97 ≤ c.toNat) && decide (c.toNat ≤ 102))
    || (decide (65 ≤ c.toNat) && decide (c.toNat ≤ 70))

/-- The value of a hexadecimal letter. -/
def hexLetterVal (c : Char) : Nat :=
  if 97 ≤ c.toNat then c.toNat - 87 else c.toNat - 55

/-- The digits loop of `readFloat`, in base 16 when `hex` and in base 10 otherwise:
digits with at most one point, underscores skipped.  Returns the integer spelled by
all the digits, the number of digits after the point, whether a digit was seen, and
the unread input; a second point is a syntax error. -/
def readDigits (hex : Bool) :
    List Char → Nat → Nat → Bool → Bool → Option (Nat × Nat × Bool × List Char)
  | [], m, f, _, sawdigits => some (m, f, sawdigits, [])
  | c :: cs, m, f, sawdot, sawdigits =>
    if c = '_' then readDigits hex cs m f sawdot sawdigits
    else if c = '.' then
      if sawdot then none else readDigits hex cs m f true sawdigits
    else if isDigit c then
      readDigits hex cs (m * (if hex then 16 else 10) + digitVal c)
        (if sawdot then f + 1 else f) sawdot true
    else if hex && isHexLetter c then
      readDigits hex cs (m * 16 + hexLetterVal c) (if sawdot then f + 1 else f) sawdot true
    else some (m, f, sawdigits, c :: cs)

/-- The exponent digits: every remaining byte must be a digit or an underscore; the
value stops growing once it has reached 10000. -/
def expDigits : List Char → Nat → Option Nat
  | [], e => some e
  | c :: cs, e =>
    if c = '_' then expDigits cs e
    else if isDigit c then expDigits cs (if e < 10000 then e * 10 + digitVal c else e)
    else none

/-- The exponent of `readFloat`, which must end the string: `e` or `E` and optional
in base 10, `p` or `P` and required in base 16; a sign may follow the letter and a
digit must come next. -/
def readExp (hex : Bool) : List Char → Option Int
  | [] => if hex then none else some 0
  | c :: cs =>
    if (if hex then c = 'p' ∨ c = 'P' else c = 'e' ∨ c = 'E') then
      match cs with
      | [] => none
      | s :: ds =>
        let esign : Bool := decide (s = '-')
        let rest := if s = '+' ∨ s = '-' then ds else s :: ds
        match rest with
        | [] => none
        | d :: _ =>
          if isDigit d then
            match expDigits rest 0 with
            | none => none
            | some e => some (if esign then -(e : Int) else (e : Int))
          else none
    else none

/-- The scan of `underscoreOK` over the number proper; `saw` is the kind of the last
byte: `0` for a digit or a base prefix, `_` for an underscore, `!` for anything else
and `^` at the start. -/
def underscoreScan (hex : Bool) : List Char → Char → Bool
  | [], saw => saw != '_'
  | c :: cs, saw =>
    if isDigit c || (hex && isHexLetter c) then underscoreScan hex cs '0'
    else if c = '_' then
      if saw != '0' then false else underscoreScan hex cs '_'
    else if saw = '_' then false
    else underscoreScan hex cs '!'

/-- The check `underscoreOK`: an underscore stands only between digits, or between a
base prefix and a digit. -/
def underscoreOK (s : List Char) : Bool :=
  let t : List Char :=
    match s with
    | c :: cs => if c = '-' ∨ c = '+' then cs else c :: cs
    | [] => []
  match t with
  | c0 :: c1 :: rest =>
    if c0 = '0' ∧ (c1 = 'b' ∨ c1 = 'B' ∨ c1 = 'o' ∨ c1 = 'O' ∨ c1 = 'x' ∨ c1 = 'X') then
      underscoreScan (decide (c1 = 'x' ∨ c1 = 'X')) rest '0'
    else underscoreScan false t '^'
  | _ => underscoreScan false t '^'

/-- Whether a number, its sign removed, starts with the base prefix `0x` or `0X`
followed by at least one more byte. -/
def hexPrefix : List Char → Bool
  | c0 :: c1 :: _ :: _ => decide (c0 = '0' ∧ (c1 = 'x' ∨ c1 = 'X'))
  | _ => false

/-- The reader `readFloat` on a whole string: the sign, whether the number is
hexadecimal, the integer `m` spelled by the digits and the exponent `x`, for the value
`(-1)^neg * m * 10^x`, or `(-1)^neg * m * 2^x` when hexadecimal; `none` on a syntax
error. -/
def readFloat (s : List Char) : Option (Bool × Bool × Nat × Int) :=
  match s with
  | [] => none
  | c :: cs =>
    let neg : Bool := decide (c = '-')
    let body := if c = '+' ∨ c = '-' then cs else c :: cs
    let hex : Bool := hexPrefix body
    let digits := if hex then body.drop 2 else body
    match readDigits hex digits 0 0 false false with
    | none => none
    | some (m, f, sawdigits, rest) =>
      if sawdigits then
        match readExp hex rest with
        | none => none
        | some e =>
          if s.elem '_' && !underscoreOK s then none
          else some (neg, hex, m, if hex then e - 4 * (f : Int) else e - (f : Int))
      else none

/-- The named values `special` recognises, case ignored: `inf`, `infinity` (with an
optional sign) and `nan`. -/
def special (s : List Char) : Option F64 :=
  let l := s.map Char.toLower
  if l = "inf".toList ∨ l = "infinity".toList ∨ l = "+inf".toList ∨ l = "+infinity".toList then
    some (F64.inf false)
  else if l = "-inf".toList ∨ l = "-infinity".toList then some (F64.inf true)
  else if l = "nan".toList then some F64.nan
  else none

/-- The value of `strconv.ParseFloat(s, 64)`, its error dropped: the nearest float64
to the decimal or hexadecimal value of `s`, and `0` when `s` is not a number. -/
def ParseFloat (s : String) : F64 :=
  match special s.toList with
  | some v => v
  | none =>
    match readFloat s.toList with
    | none => F64.fin false 0 (-1074)
    | some (neg, hex, m, x) =>
      if x < 0 then F64.ofFrac neg m ((if hex then 2 else 10) ^ (-x).toNat)
      else F64.ofFrac neg (m * (if hex then 2 else 10) ^ x.toNat) 1

/-! ## strconv.FormatFloat(x, 'g', 10, 64) -/

/-- The digits and the decimal point of a rounded value (`decimalSlice`): the value
is `0.d * 10^dp`, and `d` has no trailing zero. -/
structure decimalSlice where
  d : List Char
  dp : Int

/-- Least `k` from `k` on with `p < q * 10^k`, at most `fuel` steps. -/
def decUp (p q : Nat) : Nat → Nat → Nat
  | 0, k => k
  | fuel + 1, k => if p < q * 10 ^ k then k else decUp p q fuel (k + 1)

/-- Least `j` from `j` on with `q ≤ p * 10^j`, at most `fuel` steps. -/
def decDown (p q : Nat) : Nat → Nat → Nat
  | 0, j => j
  | fuel + 1, j => if q ≤ p * 10 ^ j then j else decDown p q fuel (j + 1)

/-- The decimal point of `p / q > 0`: the `dp` with `10^(dp-1) ≤ p / q < 10^dp`. -/
def decPoint (p q : Nat) : Int :=
  if q ≤ p then (decUp p q p 1 : Int) else 1 - (decDown p q q 1 : Int)

/-- Drops the trailing zeros of a digit string. -/
def trimZeros (l : List Char) : List Char :=
  (l.reverse.dropWhile (fun c => c = '0')).reverse

/-- The ten significant digits of `m * 2^e`, rounded to nearest even from the exact
value, trailing zeros dropped; no digits for zero. -/
def roundDigits (m : Nat) (e : Int) : decimalSlice :=
  if m = 0 then { d := [], dp := 0 }
  else
    let f := scale2 m 1 (-e)
    let dp := decPoint f.1 f.2
    let n :=
      if dp ≤ 10 then roundHalfEven (f.1 * 10 ^ (10 - dp).toNat) f.2
      else roundHalfEven f.1 (f.2 * 10 ^ (dp - 10).toNat)
    if n = 10 ^ 10 then { d := ['1'], dp := dp + 1 }
    else { d := trimZeros (Nat.toDigits 10 n), dp := dp }

/-- The exponent of the %e form: a sign and at least two digits. -/
def fmtExp (exp : Int) : List Char :=
  let a := exp.natAbs
  let sign : Char := if exp < 0 then '-' else '+'
  if a < 10 then [sign, '0'] ++ Nat.toDigits 10 a
  else sign :: Nat.toDigits 10 a

/-- The %e form with `prec` digits after the point. -/
def fmtE (neg : Bool) (digs : decimalSlice) (prec : Nat) : List Char :=
  let sign : List Char := if neg then ['-'] else []
  let first : Char := digs.d.headD '0'
  let m := min digs.d.length (prec + 1)
  let more : List Char :=
    if 0 < prec then
      '.' :: ((digs.d.take m).drop 1 ++ List.replicate (prec + 1 - max m 1) '0')
    else []
  let exp : Int := if digs.d.length = 0 then 0 else digs.dp - 1
  sign ++ first :: more ++ 'e' :: fmtExp exp

/-- The %f form with `prec` digits after the point. -/
def fmtF (neg : Bool) (digs : decimalSlice) (prec : Nat) : List Char :=
  let sign : List Char := if neg then ['-'] else []
  let nd := digs.d.length
  let intPart : List Char :=
    if 0 < digs.dp then
      let m := min nd digs.dp.toNat
      digs.d.take m ++ List.replicate (digs.dp.toNat - m) '0'
    else ['0']
  let frac : List Char :=
    if 0 < prec then
      '.' :: (List.range prec).map (fun i =>
        let j : Int := digs.dp + (i : Int)
        if 0 ≤ j ∧ j < (nd : Int) then digs.d.getD j.toNat '0' else '0')
    else []
  sign ++ intPart ++ frac

/-- The string `strconv.FormatFloat(x, 'g', 10, 64)`: ten significant digits, in the
%e form when the decimal exponent is below -4 or at least the precision, else in
the %f form, trailing zeros dropped. -/
def FormatFloat (x : F64) : String :=
  match x with
  | F64.nan => "NaN"
  | F64.inf false => "+Inf"
  | F64.inf true => "-Inf"
  | F64.fin neg m e =>
    let digs := roundDigits m e
    let nd := digs.d.length
    let eprec : Int := if nd < 10 ∧ digs.dp ≤ (nd : Int) then (nd : Int) else 10
    let exp : Int := digs.dp - 1
    if exp < -4 ∨ eprec ≤ exp then
      String.mk (fmtE neg digs ((if nd < 10 then nd else 10) - 1))
    else
      String.mk (fmtF neg digs ((nd : Int) - digs.dp).toNat)

/-! ## The ledger and the chaincode functions -/

/-- The world state of the chaincode: the bytes stored under each key, `none` for an
absent key. -/
abbrev Ledger := String → Option String

/-- The call `stub.GetState(key)` on a ledger that answers: the stored bytes, no
bytes for an absent key. -/
def GetState (stub : Ledger) (key : String) : String := (stub key).getD ""

/-- The call `stub.PutState(key, value)` on a ledger that answers: the ledger with
`value` under `key`.  A value without bytes removes the key, as in the stub. -/
def PutState (stub : Ledger) (key value : String) : Ledger :=
  fun k => if k = key then (if value = "" then none else some value) else stub k

/-- The response of the chaincode to the peer: `shim.Success(payload)` or
`shim.Error(message)`. -/
inductive Response where
  | Success (payload : String) : Response
  | Error (message : String) : Response
  deriving DecidableEq, Repr

/-- The deployment entry point `Init` on the arguments of `GetStringArgs`.  The
result is `none` when the source indexes the empty argument list (a run-time panic of
`args[0]`); otherwise the response and the ledger after the call. -/
def Init (stub : Ledger) (args : List String) : Option (Response × Ledger) :=
  match args with
  | [] => none
  | command :: params =>
    if command ≠ "deploy" then
      some (Response.Error
        "Incorrect command! This smart contract is for deploying supply chain contracts.", stub)
    else
      match params with
      | [quantity_1, payment_1, quantity_2_s0, payment_2_s0, quantity_2_s1, payment_2_s1] =>
        let buyer_balance :=
          FormatFloat (F64.add (ParseFloat payment_1) (ParseFloat payment_2_s1))
        let supplier_balance := "0"
        let stub1 := PutState stub "quantity_1" quantity_1
        let stub2 := PutState stub1 "payment_1" payment_1
        let stub3 := PutState stub2 "quantity_2s0" quantity_2_s0
        let stub4 := PutState stub3 "payment_2s0" payment_2_s0
        let stub5 := PutState stub4 "quantity_2s1" quantity_2_s1
        let stub6 := PutState stub5 "payment_2s1" payment_2_s1
        let stub7 := PutState stub6 "buyer_balance" buyer_balance
        let stub8 := PutState stub7 "supplier_balance" supplier_balance
        some (Response.Success "", stub8)
      | _ =>
        some (Response.Error
          "Incorrect number of arguments! Expecting six parameters for the contract: quantity_1, payment_1, quantity_2s0, payment_2s0, quantity_2s1, payment_2s1.",
          stub)

/-- The function `sendGoods`: the result string or the error, and the ledger after
the call. -/
def sendGoods (stub : Ledger) (args : List String) : Except String String × Ledger :=
  match args with
  | [arg0] =>
    let predefinedValue := GetState stub "quantity_1"
    let buyer_balance_1 := GetState stub "buyer_balance"
    if arg0 = predefinedValue then
      let stub1 := PutState stub "supplier_balance" predefinedValue
      let buyer_balance_2 :=
        FormatFloat (F64.sub (ParseFloat buyer_balance_1) (ParseFloat predefinedValue))
      let stub2 := PutState stub1 "buyer_balance" buyer_balance_2
      (Except.ok "Sending goods success", stub2)
    else
      (Except.error
        ("Wrong quantity of goods to send: " ++ arg0 ++ ". Please check you contract."), stub)
  | _ => (Except.error "Incorrect arguments for sending goods. Expecting 1 parameter.", stub)

/-- The function `signal`. -/
def signal (stub : Ledger) (args : List String) : Except String String × Ledger :=
  match args with
  | [arg0] =>
    if arg0 = "0" ∨ arg0 = "1" then
      let stub1 := PutState stub "signal" arg0
      (Except.ok "Signaling success", stub1)
    else
      (Except.error ("Unsupported signal value: " ++ arg0), stub)
  | _ => (Except.error "Incorrect arguments for signal. Expecting 1 parameter.", stub)

/-- The function `realize`.  `payment_2` is the payment read in the branch of the
recorded signal, and no bytes when the signal is neither "0" nor "1". -/
def realize (stub : Ledger) : Except String String × Ledger :=
  let signal_value := GetState stub "signal"
  let buyer_balance_2 := GetState stub "buyer_balance"
  let supplier_balance_2 := GetState stub "supplier_balance"
  let payment_2 :=
    if signal_value = "0" then GetState stub "payment_2s0"
    else if signal_value = "1" then GetState stub "payment_2s1"
    else ""
  let buyer_balance_final :=
    FormatFloat (F64.sub (ParseFloat buyer_balance_2) (ParseFloat payment_2))
  let stub1 := PutState stub "buyer_balance" buyer_balance_final
  let supplier_balance_final :=
    FormatFloat (F64.add (ParseFloat supplier_balance_2) (ParseFloat payment_2))
  let stub2 := PutState stub1 "supplier_balance" supplier_balance_final
  (Except.ok "Realize the second payment success", stub2)

/-- The function `query`. -/
def query (stub : Ledger) (args : List String) : Except String String × Ledger :=
  match args with
  | [arg0] =>
    if arg0 = "quantity_1" ∨ arg0 = "payment_1" ∨ arg0 = "quantity_2s0" ∨ arg0 = "payment_2s0"
        ∨ arg0 = "quantity_2s1" ∨ arg0 = "payment_2s1" ∨ arg0 = "signal" then
      (Except.ok (GetState stub arg0), stub)
    else
      (Except.error ("Unsupported item: " ++ arg0), stub)
  | _ =>
    (Except.error
      "Incorrect arguments. Expecting 1 parameter, which is one of the items pre-defined in your contract.",
      stub)

/-- The tail of `Invoke`: `shim.Error(err.Error())` when the function returned an
error, `shim.Success([]byte(result))` otherwise, next to the ledger the function
left. -/
def respond (r : Except String String × Ledger) : Response × Ledger :=
  match r.1 with
  | Except.error err => (Response.Error err, r.2)
  | Except.ok result => (Response.Success result, r.2)

/-- The entry point `Invoke` on the function name and parameters of
`GetFunctionAndParameters`. -/
def Invoke (stub : Ledger) (fn : String) (args : List String) : Response × Ledger :=
  if fn = "sendGoods" then respond (sendGoods stub args)
  else if fn = "signal" then respond (signal stub args)
  else if fn = "realize" then respond (realize stub)
  else if fn = "query" then respond (query stub args)
  else (Response.Error ("Unsupported functions: " ++ fn), stub)

/-- The empty ledger, before deployment. -/
def emptyLedger : Ledger := fun _ => none

/-! ## Vocabulary of the properties -/

deriving instance DecidableEq for Except

/-- The ledger left by `Init` on the empty ledger (the empty ledger itself when the
call panics). -/
def ledgerAfterInit (args : List String) : Ledger :=
  match Init emptyLedger args with
  | some r => r.2
  | none => emptyLedger

/-- The deployment of the worked scenario: `Init` with the terms 10, 100, 5, 50, 8, 80. -/
def scenario : Ledger := ledgerAfterInit ["deploy", "10", "100", "5", "50", "8", "80"]

/-- Runs invocations in order, each given as function name and parameters; `none` as
soon as one is answered with `shim.Error`. -/
def invokeAll : Ledger → List (String × List String) → Option Ledger
  | stub, [] => some stub
  | stub, call :: rest =>
    match Invoke stub call.1 call.2 with
    | (Response.Success _, stub1) => invokeAll stub1 rest
    | (Response.Error _, _) => none

/-- The bytes `realize` uses as `payment_2` on a ledger. -/
def selectedPayment (stub : Ledger) : String :=
  if GetState stub "signal" = "0" then GetState stub "payment_2s0"
  else if GetState stub "signal" = "1" then GetState stub "payment_2s1"
  else ""

/-- The float64 value of an integer (exact below 2^53 in magnitude). -/
def F64.ofInt (k : Int) : F64 := F64.ofFrac (decide (k < 0)) k.natAbs 1

/-- The float64 sum of the two stored balances. -/
def balanceSum (stub : Ledger) : F64 :=
  F64.add (ParseFloat (GetState stub "buyer_balance"))
    (ParseFloat (GetState stub "supplier_balance"))

set_option maxRecDepth 20000

/-! ## Basic facts about the ledger and the four functions -/

theorem PutState_same (stub : Ledger) (key value : String) (h : value ≠ "") :
    PutState stub key value key = some value := by
  simp [PutState, h]

/-- A `PutState` without bytes removes the key. -/
theorem PutState_empty (stub : Ledger) (key : String) : PutState stub key "" key = none := by
  simp [PutState]

/-- The syntax `ParseFloat` reads: digit-separating underscores, hexadecimal mantissas
with a binary exponent, and the rejection of misplaced underscores and of a
hexadecimal mantissa without exponent. -/
theorem ParseFloat_syntax :
    ParseFloat "1_000" = ParseFloat "1000" ∧ ParseFloat "0x1p4" = ParseFloat "16"
      ∧ ParseFloat "0x1.8p0" = ParseFloat "1.5" ∧ ParseFloat "0X_1Ap-1" = ParseFloat "13"
      ∧ ParseFloat "1_e2" = ParseFloat "0" ∧ ParseFloat "_1" = ParseFloat "0"
      ∧ ParseFloat "0x1.8" = ParseFloat "0" ∧ ParseFloat "1e1_0" = ParseFloat "10000000000"
      ∧ ParseFloat "-Infinity" = F64.inf true ∧ ParseFloat "-0x.8P+1" = ParseFloat "-1" := by
  decide

theorem GetState_PutState_same (stub : Ledger) (key value : String) :
    GetState (PutState stub key value) key = value := by
  by_cases h : value = ""
  · simp [GetState, PutState, h]
  · simp [GetState, PutState, h]

theorem GetState_PutState_other (stub : Ledger) (key value k : String) (h : k ≠ key) :
    GetState (PutState stub key value) k = GetState stub k := by
  simp [GetState, PutState, h]

theorem fmtF_ne_nil (neg : Bool) (digs : decimalSlice) (prec : Nat) :
    fmtF neg digs prec ≠ [] := by
  intro h
  have hlen := congrArg List.length h
  unfold fmtF at hlen
  simp only [List.length_append, List.length_nil] at hlen
  by_cases hdp : 0 < digs.dp
  · simp only [hdp, if_true, List.length_append, List.length_take, List.length_replicate] at hlen
    omega
  · simp only [hdp, if_false, List.length_singleton] at hlen
    omega

theorem fmtE_ne_nil (neg : Bool) (digs : decimalSlice) (prec : Nat) :
    fmtE neg digs prec ≠ [] := by
  unfold fmtE
  simp

/-- A rendering is never the empty string. -/
theorem FormatFloat_ne_empty (x : F64) : FormatFloat x ≠ "" := by
  have hmk : ∀ l : List Char, l ≠ [] → String.mk l ≠ "" := by
    intro l hl h
    apply hl
    have := congrArg String.data h
    simpa using this
  unfold FormatFloat
  split
  · decide
  · decide
  · decide
  · simp only []
    split_ifs
    all_goals first
      | exact hmk _ (fmtE_ne_nil _ _ _)
      | exact hmk _ (fmtF_ne_nil _ _ _)

theorem PutState_other (stub : Ledger) (key value k : String) (h : k ≠ key) :
    PutState stub key value k = stub k := by
  simp [PutState, h]

theorem signal_keeps (stub : Ledger) (args : List String) (k : String) (h : k ≠ "signal") :
    (signal stub args).2 k = stub k := by
  unfold signal
  split
  · split
    · exact PutState_other _ _ _ _ h
    · rfl
  · rfl

theorem query_keeps (stub : Ledger) (args : List String) : (query stub args).2 = stub := by
  unfold query
  split
  · split <;> rfl
  · rfl

theorem realize_eq (stub : Ledger) :
    realize stub = (Except.ok "Realize the second payment success",
      PutState
        (PutState stub "buyer_balance"
          (FormatFloat (F64.sub (ParseFloat (GetState stub "buyer_balance"))
            (ParseFloat (selectedPayment stub)))))
        "supplier_balance"
        (FormatFloat (F64.add (ParseFloat (GetState stub "supplier_balance"))
          (ParseFloat (selectedPayment stub))))) := rfl

theorem realize_buyer (stub : Ledger) :
    (realize stub).2 "buyer_balance"
      = some (FormatFloat (F64.sub (ParseFloat (GetState stub "buyer_balance"))
          (ParseFloat (selectedPayment stub)))) := by
  rw [realize_eq]
  simp [PutState, FormatFloat_ne_empty]

theorem realize_supplier (stub : Ledger) :
    (realize stub).2 "supplier_balance"
      = some (FormatFloat (F64.add (ParseFloat (GetState stub "supplier_balance"))
          (ParseFloat (selectedPayment stub)))) := by
  rw [realize_eq]
  simp [PutState, FormatFloat_ne_empty]

theorem realize_keeps (stub : Ledger) (k : String) (hb : k ≠ "buyer_balance")
    (hs : k ≠ "supplier_balance") : (realize stub).2 k = stub k := by
  rw [realize_eq]
  simp [PutState, hb, hs]

theorem Invoke_signal (stub : Ledger) (args : List String) :
    (Invoke stub "signal" args).2 = (signal stub args).2 := by
  unfold Invoke
  rw [if_neg (by decide), if_pos rfl]
  simp only [respond]
  cases (signal stub args).1 <;> rfl

theorem Invoke_query (stub : Ledger) (args : List String) :
    (Invoke stub "query" args).2 = stub := by
  unfold Invoke
  rw [if_neg (by decide), if_neg (by decide), if_neg (by decide), if_pos rfl]
  simp only [respond]
  cases h : (query stub args).1 <;> simp [query_keeps]

theorem Invoke_realize (stub : Ledger) (args : List String) :
    Invoke stub "realize" args
      = (Response.Success "Realize the second payment success", (realize stub).2) := by
  unfold Invoke
  rw [if_neg (by decide), if_neg (by decide), if_pos rfl]
  rfl

theorem invokeAll_signal_query (calls : List (String × List String)) :
    ∀ (stub stub1 : Ledger), (∀ c ∈ calls, c.1 = "signal" ∨ c.1 = "query") →
      invokeAll stub calls = some stub1 →
      stub1 "buyer_balance" = stub "buyer_balance"
        ∧ stub1 "supplier_balance" = stub "supplier_balance" := by
  induction calls with
  | nil =>
    intro stub stub1 _ h
    simp only [invokeAll, Option.some.injEq] at h
    subst h
    exact ⟨rfl, rfl⟩
  | cons c rest ih =>
    intro stub stub1 hc h
    obtain ⟨fn, args⟩ := c
    have hfn : fn = "signal" ∨ fn = "query" := hc (fn, args) (List.mem_cons_self _ _)
    have hrest : ∀ c ∈ rest, c.1 = "signal" ∨ c.1 = "query" :=
      fun c hmem => hc c (List.mem_cons_of_mem _ hmem)
    simp only [invokeAll] at h
    have key : (Invoke stub fn args).2 "buyer_balance" = stub "buyer_balance"
        ∧ (Invoke stub fn args).2 "supplier_balance" = stub "supplier_balance" := by
      rcases hfn with rfl | rfl
      · rw [Invoke_signal]
        exact ⟨signal_keeps _ _ _ (by decide), signal_keeps _ _ _ (by decide)⟩
      · rw [Invoke_query]
        exact ⟨rfl, rfl⟩
    rcases hinv : Invoke stub fn args with ⟨resp, stub2⟩
    rw [hinv] at h key
    cases resp with
    | Success payload =>
      have := ih stub2 stub1 hrest h
      exact ⟨this.1.trans key.1, this.2.trans key.2⟩
    | Error message => simp at h

/-! ## float64 arithmetic on integers

Integers below 2^53 in magnitude are added and subtracted exactly, and an integer below
10^10 in magnitude is rendered by `FormatFloat` as its decimal numeral, which `ParseFloat`
reads back as the same value. -/

theorem log2Aux_eq_log (fuel : Nat) : ∀ n : Nat, n ≤ fuel → log2Aux fuel n = Nat.log 2 n := by
  induction fuel with
  | zero =>
    intro n hn
    have : n = 0 := Nat.le_zero.mp hn
    subst this
    simp [log2Aux]
  | succ fuel ih =>
    intro n hn
    simp only [log2Aux]
    by_cases h : n < 2
    · rw [if_pos h, Nat.log_of_lt h]
    · rw [if_neg h]
      have h2 : 2 ≤ n := Nat.le_of_not_lt h
      rw [ih (n / 2) (by omega), Nat.log_of_one_lt_of_le (by decide) h2]

theorem log2_eq_log (n : Nat) : log2 n = Nat.log 2 n := log2Aux_eq_log n n (le_refl n)

theorem log2_mul_pow (n k : Nat) (hn : n ≠ 0) : log2 (n * 2 ^ k) = log2 n + k := by
  rw [log2_eq_log, log2_eq_log]
  induction k with
  | zero => simp
  | succ k ih =>
    rw [pow_succ, ← mul_assoc, Nat.log_mul_base (by decide) (by positivity), ih]
    rfl

theorem log2_pow (k : Nat) : log2 (2 ^ k) = k := by
  have := log2_mul_pow 1 k (by decide)
  rw [one_mul] at this
  rw [this, log2_eq_log]
  simp

theorem roundHalfEven_mul (n d t : Nat) (ht : 0 < t) :
    roundHalfEven (n * t) (d * t) = roundHalfEven n d := by
  unfold roundHalfEven
  have hdiv : n * t / (d * t) = n / d := Nat.mul_div_mul_right n d ht
  have hmod : n * t % (d * t) = n % d * t := by
    rw [Nat.mul_comm n t, Nat.mul_comm d t, Nat.mul_mod_mul_left, Nat.mul_comm]
  simp only [hdiv, hmod]
  have e1 : (2 * (n % d * t) < d * t) ↔ (2 * (n % d) < d) := by
    rw [← Nat.mul_assoc]
    exact Nat.mul_lt_mul_right ht
  have e2 : (d * t < 2 * (n % d * t)) ↔ (d < 2 * (n % d)) := by
    rw [← Nat.mul_assoc]
    exact Nat.mul_lt_mul_right ht
  simp only [e1, e2]

theorem roundHalfEven_exact (n t : Nat) (ht : 0 < t) : roundHalfEven (n * t) t = n := by
  unfold roundHalfEven
  simp [Nat.mul_mod_left, Nat.mul_div_cancel _ ht, ht]

theorem scale2_mul (p q t : Nat) (e : Int) :
    scale2 (p * t) (q * t) e = ((scale2 p q e).1 * t, (scale2 p q e).2 * t) := by
  unfold scale2
  by_cases h : e < 0
  · simp only [if_pos h]
    rw [Nat.mul_right_comm]
  · simp only [if_neg h]
    rw [Nat.mul_right_comm]

theorem ofFrac_mul_pow (neg : Bool) (p q K : Nat) (hp : p ≠ 0) (hq : q ≠ 0) :
    F64.ofFrac neg (p * 2 ^ K) (q * 2 ^ K) = F64.ofFrac neg p q := by
  have ht : 0 < 2 ^ K := by positivity
  have hp2 : p * 2 ^ K ≠ 0 := Nat.mul_ne_zero hp (by positivity)
  unfold F64.ofFrac
  rw [if_neg hp2, if_neg hp]
  have hl : (log2 (p * 2 ^ K) : Int) - (log2 (q * 2 ^ K) : Int) - 53
      = (log2 p : Int) - (log2 q : Int) - 53 := by
    rw [log2_mul_pow p K hp, log2_mul_pow q K hq]
    push_cast
    ring
  simp only [hl, scale2_mul, Nat.mul_div_mul_right _ _ ht, roundHalfEven_mul _ _ _ ht]

theorem log2_lt_of_lt_pow (n k : Nat) (hn : n ≠ 0) (h : n < 2 ^ k) : log2 n < k := by
  rw [log2_eq_log]
  exact Nat.log_lt_of_lt_pow hn h

theorem pow_log2_le (n : Nat) (hn : n ≠ 0) : 2 ^ log2 n ≤ n := by
  rw [log2_eq_log]
  exact Nat.pow_log_le_self 2 hn

theorem lt_pow_log2_succ (n : Nat) : n < 2 ^ (log2 n + 1) := by
  rw [log2_eq_log]
  exact Nat.lt_pow_succ_log_self (by decide) n

theorem scale2_neg_succ (p q k : Nat) : scale2 p q (-(k : Int) - 1) = (p * 2 ^ (k + 1), q) := by
  unfold scale2
  have h : (-(k : Int) - 1) < 0 := by omega
  have h2 : (-(-(k : Int) - 1)).toNat = k + 1 := by omega
  rw [if_pos h, h2]

theorem scale2_nonneg (p q k : Nat) : scale2 p q (k : Int) = (p, q * 2 ^ k) := by
  unfold scale2
  have h : ¬ ((k : Int) < 0) := by omega
  rw [if_neg h, Int.toNat_ofNat]

theorem roundHalfEven_one (x : Nat) : roundHalfEven x 1 = x := by
  have := roundHalfEven_exact x 1 (by decide)
  rwa [Nat.mul_one] at this

/-- The canonical form of an integer below 2^53. -/
theorem ofFrac_int (neg : Bool) (n : Nat) (hn : n ≠ 0) (h : n < 2 ^ 53) :
    F64.ofFrac neg n 1 = F64.fin neg (n * 2 ^ (52 - log2 n)) ((log2 n : Int) - 52) := by
  have hL : log2 n < 53 := log2_lt_of_lt_pow n 53 hn h
  have hlo := pow_log2_le n hn
  have hhi := lt_pow_log2_succ n
  obtain ⟨j, hj⟩ : ∃ j, log2 n + j = 52 := ⟨52 - log2 n, by omega⟩
  have hj2 : 52 - log2 n = j := by omega
  have hLj : log2 n = 52 - j := by omega
  have hjle : j ≤ 52 := by omega
  have hpow : 2 ^ (52 - j) * 2 ^ j = 2 ^ 52 := by
    rw [← pow_add]
    congr 1
    omega
  have hlo2 : 2 ^ 52 ≤ n * 2 ^ j := by
    rw [← hpow]
    exact Nat.mul_le_mul_right _ (hLj ▸ hlo)
  have hhi2 : n * 2 ^ j < 2 ^ 53 := by
    have : 2 ^ (52 - j + 1) * 2 ^ j = 2 ^ 53 := by
      rw [← pow_add]
      congr 1
      omega
    rw [← this]
    exact Nat.mul_lt_mul_of_pos_right (hLj ▸ hhi) (by positivity)
  unfold F64.ofFrac
  rw [if_neg hn]
  have h1 : log2 1 = 0 := by decide
  have he1 : ((log2 n : Int) - ((log2 1 : Nat) : Int) - 53) = -(j : Int) - 1 := by
    rw [h1]
    omega
  have he2 : (-(j : Int) - 1 + 1) = -(j : Int) := by omega
  simp only [he1, scale2_neg_succ, Nat.div_one]
  have hnot : ¬ (n * 2 ^ (j + 1) < 2 ^ 53) := by
    rw [pow_succ, ← mul_assoc]
    omega
  rw [if_neg hnot, he2]
  have hnot2 : ¬ (-(j : Int) < -1074) := by omega
  rw [if_neg hnot2]
  have hs3 : roundHalfEven (scale2 n 1 (-(j : Int))).1 (scale2 n 1 (-(j : Int))).2 = n * 2 ^ j := by
    rcases j with _ | j'
    · have : (-((0 : Nat) : Int)) = ((0 : Nat) : Int) := by simp
      rw [this, scale2_nonneg]
      simp [roundHalfEven_one]
    · have : (-((j' + 1 : Nat) : Int)) = -(j' : Int) - 1 := by push_cast; ring
      rw [this, scale2_neg_succ]
      simp [roundHalfEven_one]
  simp only [hs3]
  have hne : n * 2 ^ j ≠ 2 ^ 53 := by omega
  rw [if_neg hne, if_neg hne]
  have hle : ¬ ((971 : Int) < -(j : Int)) := by omega
  rw [if_neg hle, hj2]
  congr 1
  omega

theorem ofInt_zero : F64.ofInt 0 = F64.fin false 0 (-1074) := by decide

theorem ofInt_ne_zero (a : Int) (ha : a ≠ 0) (h : a.natAbs < 2 ^ 53) :
    F64.ofInt a = F64.fin (decide (a < 0)) (a.natAbs * 2 ^ (52 - log2 a.natAbs))
      ((log2 a.natAbs : Int) - 52) :=
  ofFrac_int _ _ (Int.natAbs_ne_zero.mpr ha) h

theorem signedMant_natAbs (a : Int) : signedMant (decide (a < 0)) a.natAbs = a := by
  unfold signedMant
  by_cases h : a < 0
  · simp only [h, decide_True, if_true]
    omega
  · simp only [h, decide_False]
    simp only [Bool.false_eq_true, if_false]
    omega

theorem signedMant_mul (neg : Bool) (m t : Nat) :
    signedMant neg (m * t) = signedMant neg m * (t : Int) := by
  unfold signedMant
  cases neg <;> simp

theorem add_fin_aligned (n1 n2 : Bool) (x y ja jb : Nat) (hx : x ≠ 0) (hy : y ≠ 0) :
    F64.add (F64.fin n1 (x * 2 ^ ja) (-(ja : Int))) (F64.fin n2 (y * 2 ^ jb) (-(jb : Int)))
      = if signedMant n1 x + signedMant n2 y = 0 then F64.fin (n1 && n2) 0 (-1074)
        else F64.ofFrac (decide (signedMant n1 x + signedMant n2 y < 0))
          (signedMant n1 x + signedMant n2 y).natAbs 1 := by
  have hx2 : x * 2 ^ ja ≠ 0 := Nat.mul_ne_zero hx (by positivity)
  have hy2 : y * 2 ^ jb ≠ 0 := Nat.mul_ne_zero hy (by positivity)
  unfold F64.add
  simp only [hx2, hy2, false_and, if_false]
  -- the common exponent is -K with K the larger of ja and jb
  obtain ⟨K, hK1, hK2, hKe⟩ : ∃ K : Nat, ja ≤ K ∧ jb ≤ K ∧
      (if -(ja : Int) ≤ -(jb : Int) then -(ja : Int) else -(jb : Int)) = -(K : Int) := by
    by_cases h : -(ja : Int) ≤ -(jb : Int)
    · exact ⟨ja, le_refl _, by omega, by rw [if_pos h]⟩
    · exact ⟨jb, by omega, le_refl _, by rw [if_neg h]⟩
  rw [hKe]
  have t1 : (-(ja : Int) - -(K : Int)).toNat = K - ja := by omega
  have t2 : (-(jb : Int) - -(K : Int)).toNat = K - jb := by omega
  have m1 : x * 2 ^ ja * 2 ^ (K - ja) = x * 2 ^ K := by
    rw [mul_assoc, ← pow_add]
    congr 2
    omega
  have m2 : y * 2 ^ jb * 2 ^ (K - jb) = y * 2 ^ K := by
    rw [mul_assoc, ← pow_add]
    congr 2
    omega
  rw [t1, t2, m1, m2, signedMant_mul, signedMant_mul, ← add_mul]
  have hpos : (0 : Int) < ((2 ^ K : Nat) : Int) := by positivity
  have hne : ((2 ^ K : Nat) : Int) ≠ 0 := ne_of_gt hpos
  by_cases hs : signedMant n1 x + signedMant n2 y = 0
  · rw [if_pos hs, hs, zero_mul, if_pos rfl]
  · rw [if_neg hs, if_neg (mul_ne_zero hs hne)]
    have hsc : scale2 ((signedMant n1 x + signedMant n2 y) * ((2 ^ K : Nat) : Int)).natAbs 1
        (-(-(K : Int))) = ((signedMant n1 x + signedMant n2 y).natAbs * 2 ^ K, 1 * 2 ^ K) := by
      rw [neg_neg, scale2_nonneg, Int.natAbs_mul, Int.natAbs_ofNat]
    have hsign : decide ((signedMant n1 x + signedMant n2 y) * ((2 ^ K : Nat) : Int) < 0)
        = decide (signedMant n1 x + signedMant n2 y < 0) := by
      congr 1
      refine propext ⟨fun h => ?_, fun h => mul_neg_of_neg_of_pos h hpos⟩
      by_contra hn
      exact absurd h (not_lt.mpr (mul_nonneg (not_lt.mp hn) hpos.le))
    rw [hsc, hsign]
    exact ofFrac_mul_pow _ _ 1 K (Int.natAbs_ne_zero.mpr hs) (by decide)

theorem ofInt_as_aligned_bound (a : Int) (ha : a ≠ 0) (h : a.natAbs < 2 ^ 53) :
    ∃ j : Nat, F64.ofInt a = F64.fin (decide (a < 0)) (a.natAbs * 2 ^ j) (-(j : Int))
      ∧ 2 ^ 52 ≤ a.natAbs * 2 ^ j := by
  have hn := Int.natAbs_ne_zero.mpr ha
  have hL : log2 a.natAbs < 53 := log2_lt_of_lt_pow _ 53 hn h
  have hlo := pow_log2_le a.natAbs hn
  refine ⟨52 - log2 a.natAbs, ?_, ?_⟩
  · rw [ofInt_ne_zero a ha h]
    congr 1
    omega
  · have hpow : 2 ^ log2 a.natAbs * 2 ^ (52 - log2 a.natAbs) = 2 ^ 52 := by
      rw [← pow_add]
      congr 1
      omega
    rw [← hpow]
    exact Nat.mul_le_mul_right _ hlo

theorem ofInt_as_aligned (a : Int) (ha : a ≠ 0) (h : a.natAbs < 2 ^ 53) :
    ∃ j : Nat, F64.ofInt a = F64.fin (decide (a < 0)) (a.natAbs * 2 ^ j) (-(j : Int)) := by
  obtain ⟨j, hj, _⟩ := ofInt_as_aligned_bound a ha h
  exact ⟨j, hj⟩

/-- Addition of integers is exact below 2^53. -/
theorem add_ofInt (a b : Int) (ha : a.natAbs < 2 ^ 53) (hb : b.natAbs < 2 ^ 53)
    (_hab : (a + b).natAbs < 2 ^ 53) :
    F64.add (F64.ofInt a) (F64.ofInt b) = F64.ofInt (a + b) := by
  by_cases ha0 : a = 0
  · subst ha0
    rw [zero_add, ofInt_zero]
    by_cases hb0 : b = 0
    · subst hb0
      rw [ofInt_zero]
      rfl
    · obtain ⟨j, hj⟩ := ofInt_as_aligned b hb0 hb
      rw [hj]
      have : b.natAbs * 2 ^ j ≠ 0 :=
        Nat.mul_ne_zero (Int.natAbs_ne_zero.mpr hb0) (by positivity)
      simp [F64.add, this]
  · obtain ⟨ja, hja⟩ := ofInt_as_aligned a ha0 ha
    by_cases hb0 : b = 0
    · subst hb0
      rw [add_zero, ofInt_zero, hja]
      have : a.natAbs * 2 ^ ja ≠ 0 :=
        Nat.mul_ne_zero (Int.natAbs_ne_zero.mpr ha0) (by positivity)
      simp [F64.add, this]
    · obtain ⟨jb, hjb⟩ := ofInt_as_aligned b hb0 hb
      rw [hja, hjb, add_fin_aligned _ _ _ _ _ _ (Int.natAbs_ne_zero.mpr ha0)
        (Int.natAbs_ne_zero.mpr hb0), signedMant_natAbs, signedMant_natAbs]
      by_cases hs : a + b = 0
      · rw [if_pos hs, hs, ofInt_zero]
        congr 1
        by_cases h1 : a < 0
        · have h2 : ¬ b < 0 := by omega
          simp [h1, h2]
        · simp [h1]
      · rw [if_neg hs]
        rfl

theorem neg_ofInt (b : Int) (hb0 : b ≠ 0) (hb : b.natAbs < 2 ^ 53) :
    F64.neg (F64.ofInt b) = F64.ofInt (-b) := by
  obtain ⟨j, hj⟩ := ofInt_as_aligned b hb0 hb
  rw [ofInt_ne_zero (-b) (neg_ne_zero.mpr hb0) (by rwa [Int.natAbs_neg]),
    ofInt_ne_zero b hb0 hb, Int.natAbs_neg]
  simp only [F64.neg]
  congr 1
  by_cases h : b < 0
  · have : ¬ (-b < 0) := by omega
    simp [h, this]
  · have : -b < 0 := by omega
    simp [h, this]

/-- Subtraction of integers is exact below 2^53. -/
theorem sub_ofInt (a b : Int) (ha : a.natAbs < 2 ^ 53) (hb : b.natAbs < 2 ^ 53)
    (hab : (a - b).natAbs < 2 ^ 53) :
    F64.sub (F64.ofInt a) (F64.ofInt b) = F64.ofInt (a - b) := by
  unfold F64.sub
  by_cases hb0 : b = 0
  · subst hb0
    rw [sub_zero, ofInt_zero]
    by_cases ha0 : a = 0
    · subst ha0
      rw [ofInt_zero]
      rfl
    · obtain ⟨ja, hja⟩ := ofInt_as_aligned a ha0 ha
      rw [hja]
      have : a.natAbs * 2 ^ ja ≠ 0 :=
        Nat.mul_ne_zero (Int.natAbs_ne_zero.mpr ha0) (by positivity)
      simp [F64.add, F64.neg, this]
  · rw [neg_ofInt b hb0 hb, sub_eq_add_neg]
    exact add_ofInt a (-b) ha (by rwa [Int.natAbs_neg]) (by rwa [← sub_eq_add_neg])

/-- Below 2^53 in magnitude, distinct integers have distinct float64 values. -/
theorem ofInt_injective (a b : Int) (ha : a.natAbs < 2 ^ 53) (hb : b.natAbs < 2 ^ 53)
    (h : F64.ofInt a = F64.ofInt b) : a = b := by
  by_cases ha0 : a = 0
  · subst ha0
    by_contra hb0
    obtain ⟨j, hj, hbound⟩ := ofInt_as_aligned_bound b (fun hb' => hb0 hb'.symm) hb
    rw [ofInt_zero, hj] at h
    injection h with _ hm _
    omega
  · by_cases hb0 : b = 0
    · subst hb0
      obtain ⟨j, hj, hbound⟩ := ofInt_as_aligned_bound a ha0 ha
      rw [ofInt_zero, hj] at h
      injection h with _ hm _
      omega
    · obtain ⟨ja, hja, _⟩ := ofInt_as_aligned_bound a ha0 ha
      obtain ⟨jb, hjb, _⟩ := ofInt_as_aligned_bound b hb0 hb
      rw [hja, hjb] at h
      injection h with hsign hm he
      have hj : ja = jb := by omega
      subst hj
      have hpos : 0 < 2 ^ ja := by positivity
      have habs : a.natAbs = b.natAbs := Nat.eq_of_mul_eq_mul_right hpos hm
      have hs : (a < 0) ↔ (b < 0) := by
        have := congrArg (fun x => x = true) hsign
        simpa using this
      by_cases hneg : a < 0
      · have := hs.mp hneg
        omega
      · have : ¬ b < 0 := fun hb' => hneg (hs.mpr hb')
        omega

/-- The characters of a little-endian digit list, most significant first. -/
theorem toDigitsCore_digits (fuel : Nat) : ∀ (n : Nat) (ds : List Char), n < fuel → 0 < n →
    Nat.toDigitsCore 10 fuel n ds = ((Nat.digits 10 n).reverse.map Nat.digitChar) ++ ds := by
  induction fuel with
  | zero => intro n ds h; omega
  | succ fuel ih =>
    intro n ds hlt hpos
    rw [Nat.digits_def' (by decide) hpos]
    simp only [Nat.toDigitsCore]
    by_cases h0 : n / 10 = 0
    · rw [if_pos h0, h0, Nat.digits_zero]
      simp
    · rw [if_neg h0, ih (n / 10) _ (by omega) (Nat.pos_of_ne_zero h0)]
      simp

theorem toDigits_digits (n : Nat) (hpos : 0 < n) :
    Nat.toDigits 10 n = (Nat.digits 10 n).reverse.map Nat.digitChar := by
  unfold Nat.toDigits
  rw [toDigitsCore_digits (n + 1) n [] (by omega) hpos, List.append_nil]

theorem toDigits_length (n : Nat) (hpos : 0 < n) :
    (Nat.toDigits 10 n).length = (Nat.digits 10 n).length := by
  rw [toDigits_digits n hpos]
  simp

theorem toDigits_mul_pow (n z : Nat) (hpos : 0 < n) :
    Nat.toDigits 10 (n * 10 ^ z) = Nat.toDigits 10 n ++ List.replicate z '0' := by
  rw [toDigits_digits _ (by positivity), toDigits_digits n hpos, Nat.mul_comm,
    Nat.digits_base_pow_mul (by decide) hpos]
  have h0 : Nat.digitChar 0 = '0' := rfl
  simp [h0]

theorem lt_pow_iff_digits_length (c k : Nat) :
    c < 10 ^ k ↔ (Nat.digits 10 c).length ≤ k := by
  constructor
  · intro h
    by_contra hk
    have hlt : k < (Nat.digits 10 c).length := by omega
    have hc : c ≠ 0 := by
      intro h0
      rw [h0, Nat.digits_zero] at hlt
      simp at hlt
    have h1 := Nat.base_pow_length_digits_le 10 c (by decide) hc
    have h2 : 10 ^ (k + 1) ≤ 10 ^ (Nat.digits 10 c).length :=
      Nat.pow_le_pow_right (by decide) hlt
    rw [pow_succ] at h2
    omega
  · intro h
    exact lt_of_lt_of_le (Nat.lt_base_pow_length_digits (by decide))
      (Nat.pow_le_pow_right (by decide) h)

theorem decUp_spec (p q D : Nat) (hD : p < q * 10 ^ D)
    (hmin : ∀ d, d < D → ¬ p < q * 10 ^ d) :
    ∀ (fuel k : Nat), k ≤ D → D ≤ k + fuel → decUp p q fuel k = D := by
  intro fuel
  induction fuel with
  | zero =>
    intro k h1 h2
    simp only [decUp]
    omega
  | succ fuel ih =>
    intro k h1 h2
    simp only [decUp]
    by_cases hk : p < q * 10 ^ k
    · rw [if_pos hk]
      by_contra hne
      exact hmin k (by omega) hk
    · rw [if_neg hk]
      have : k ≠ D := fun h => hk (h ▸ hD)
      exact ih (k + 1) (by omega) (by omega)

theorem decPoint_int (c t : Nat) (hc : 0 < c) (ht : 0 < t) (hfuel : (Nat.digits 10 c).length ≤ c * t + 1) :
    decPoint (c * t) (1 * t) = ((Nat.digits 10 c).length : Int) := by
  unfold decPoint
  have hle : 1 * t ≤ c * t := Nat.mul_le_mul_right t hc
  rw [if_pos hle]
  have hiff : ∀ d, c * t < 1 * t * 10 ^ d ↔ c < 10 ^ d := by
    intro d
    rw [Nat.one_mul, Nat.mul_comm t, Nat.mul_lt_mul_right ht]
  have hlen : 1 ≤ (Nat.digits 10 c).length := by
    rw [Nat.digits_len 10 c (by decide) (by omega)]
    omega
  rw [decUp_spec (c * t) (1 * t) (Nat.digits 10 c).length
    ((hiff _).mpr ((lt_pow_iff_digits_length c _).mpr (le_refl _)))
    (fun d hd h => by
      have := (lt_pow_iff_digits_length c d).mp ((hiff d).mp h)
      omega)
    (c * t) 1 hlen (by omega)]

theorem trimZeros_append_zeros (L : List Char) (z : Nat) :
    trimZeros (L ++ List.replicate z '0') = trimZeros L := by
  unfold trimZeros
  rw [List.reverse_append, List.reverse_replicate]
  rw [List.dropWhile_append_of_pos]
  intro a ha
  simp [List.eq_of_mem_replicate ha]

theorem trimZeros_decomp (L : List Char) :
    ∃ z : Nat, L = trimZeros L ++ List.replicate z '0' := by
  refine ⟨(L.reverse.takeWhile (fun c => decide (c = '0'))).length, ?_⟩
  have h := List.takeWhile_append_dropWhile (fun c => decide (c = '0')) L.reverse
  have hrep : L.reverse.takeWhile (fun c => decide (c = '0'))
      = List.replicate (L.reverse.takeWhile (fun c => decide (c = '0'))).length '0' := by
    rw [List.eq_replicate_length]
    intro b hb
    simpa using List.mem_takeWhile_imp hb
  have h2 : L = (L.reverse.dropWhile (fun c => decide (c = '0'))).reverse
      ++ (L.reverse.takeWhile (fun c => decide (c = '0'))).reverse := by
    rw [← List.reverse_append, h, List.reverse_reverse]
  unfold trimZeros
  rw [hrep, List.reverse_replicate] at h2
  exact h2

theorem scale2_neg_neg (p q j : Nat) : scale2 p q (-(-(j : Int))) = (p, q * 2 ^ j) := by
  rw [neg_neg, scale2_nonneg]

/-- The digits `roundDigits` finds for a positive integer below 10^10. -/
theorem roundDigits_int (c j : Nat) (hc : 0 < c) (h10 : c < 10 ^ 10) (hfuel : 10 ≤ c * 2 ^ j) :
    roundDigits (c * 2 ^ j) (-(j : Int))
      = { d := trimZeros (Nat.toDigits 10 c), dp := ((Nat.toDigits 10 c).length : Int) } := by
  have hm : c * 2 ^ j ≠ 0 := Nat.mul_ne_zero (by omega) (by positivity)
  have hD : (Nat.digits 10 c).length ≤ 10 := (lt_pow_iff_digits_length c 10).mp h10
  have hD1 : 1 ≤ (Nat.digits 10 c).length := by
    rw [Nat.digits_len 10 c (by decide) (by omega)]
    omega
  unfold roundDigits
  rw [if_neg hm]
  simp only [scale2_neg_neg]
  rw [decPoint_int c (2 ^ j) hc (by positivity) (by omega)]
  have hle : (((Nat.digits 10 c).length : Nat) : Int) ≤ 10 := by omega
  rw [if_pos hle]
  have hz : ((10 : Int) - ((Nat.digits 10 c).length : Int)).toNat
      = 10 - (Nat.digits 10 c).length := by omega
  rw [hz]
  have hr : roundHalfEven (c * 2 ^ j * 10 ^ (10 - (Nat.digits 10 c).length)) (1 * 2 ^ j)
      = c * 10 ^ (10 - (Nat.digits 10 c).length) := by
    rw [Nat.one_mul, Nat.mul_right_comm]
    exact roundHalfEven_exact _ _ (by positivity)
  rw [hr]
  have hlt : c * 10 ^ (10 - (Nat.digits 10 c).length) < 10 ^ 10 := by
    have h1 : c < 10 ^ (Nat.digits 10 c).length := Nat.lt_base_pow_length_digits (by decide)
    have h2 : 10 ^ (Nat.digits 10 c).length * 10 ^ (10 - (Nat.digits 10 c).length) = 10 ^ 10 := by
      rw [← pow_add]
      congr 1
      omega
    rw [← h2]
    exact Nat.mul_lt_mul_of_pos_right h1 (by positivity)
  rw [if_neg (by omega), toDigits_mul_pow c _ hc, trimZeros_append_zeros, toDigits_length c hc]

theorem fmtF_int (neg : Bool) (T : List Char) (z : Nat) (h1 : 1 ≤ T.length + z) :
    fmtF neg { d := T, dp := ((T.length + z : Nat) : Int) }
        (((T.length : Nat) : Int) - ((T.length + z : Nat) : Int)).toNat
      = (if neg then ['-'] else []) ++ (T ++ List.replicate z '0') := by
  unfold fmtF
  have hp : (((T.length : Nat) : Int) - ((T.length + z : Nat) : Int)).toNat = 0 := by omega
  have hdp : (0 : Int) < ((T.length + z : Nat) : Int) := by omega
  have hmin : min T.length (T.length + z) = T.length := by omega
  simp only [hp, hdp, if_true, Int.toNat_ofNat, hmin, List.take_length, lt_irrefl, if_false,
    List.append_nil]
  have : T.length + z - T.length = z := by omega
  rw [this]

/-- The rendering of a finite value that is a positive integer below 10^10. -/
theorem FormatFloat_fin_int (neg : Bool) (c j : Nat) (hc : 0 < c) (h10 : c < 10 ^ 10)
    (hfuel : 10 ≤ c * 2 ^ j) :
    FormatFloat (F64.fin neg (c * 2 ^ j) (-(j : Int)))
      = String.mk ((if neg then ['-'] else []) ++ Nat.toDigits 10 c) := by
  have hD : (Nat.digits 10 c).length ≤ 10 := (lt_pow_iff_digits_length c 10).mp h10
  have hD1 : 1 ≤ (Nat.digits 10 c).length := by
    rw [Nat.digits_len 10 c (by decide) (by omega)]
    omega
  have hXlen := toDigits_length c hc
  obtain ⟨z, hz⟩ := trimZeros_decomp (Nat.toDigits 10 c)
  have hlen : (Nat.toDigits 10 c).length = (trimZeros (Nat.toDigits 10 c)).length + z := by
    conv_lhs => rw [hz]
    simp
  unfold FormatFloat
  simp only [roundDigits_int c j hc h10 hfuel]
  rw [hlen]
  have hcond : ¬ ((((trimZeros (Nat.toDigits 10 c)).length + z : Nat) : Int) - 1 < -4
      ∨ (if (trimZeros (Nat.toDigits 10 c)).length < 10
            ∧ (((trimZeros (Nat.toDigits 10 c)).length + z : Nat) : Int)
              ≤ (((trimZeros (Nat.toDigits 10 c)).length : Nat) : Int)
          then (((trimZeros (Nat.toDigits 10 c)).length : Nat) : Int) else 10)
        ≤ (((trimZeros (Nat.toDigits 10 c)).length + z : Nat) : Int) - 1) := by
    split_ifs <;> omega
  rw [if_neg hcond, fmtF_int neg _ z (by omega), ← hz]

theorem digitChar_facts (d : Nat) (hd : d < 10) :
    isDigit (Nat.digitChar d) = true ∧ digitVal (Nat.digitChar d) = d
      ∧ Nat.digitChar d ≠ '.' ∧ Nat.digitChar d ≠ '-' ∧ Nat.digitChar d ≠ '+'
      ∧ (Nat.digitChar d).toLower ≠ 'n' ∧ Nat.digitChar d ≠ '_'
      ∧ Nat.digitChar d ≠ 'x' ∧ Nat.digitChar d ≠ 'X' := by
  interval_cases d <;> decide

theorem readDigits_digits (L : List Nat) (hL : ∀ d ∈ L, d < 10) :
    ∀ (m : Nat) (sd : Bool),
      readDigits false (L.map Nat.digitChar) m 0 false sd
        = some (L.foldl (fun a d => a * 10 + d) m, 0, sd || !L.isEmpty, []) := by
  induction L with
  | nil =>
    intro m sd
    simp [readDigits]
  | cons d L ih =>
    intro m sd
    have hd := digitChar_facts d (hL d (List.mem_cons_self _ _))
    have hL2 : ∀ x ∈ L, x < 10 := fun x hx => hL x (List.mem_cons_of_mem _ hx)
    simp only [List.map_cons, readDigits, hd.2.2.1, hd.2.2.2.2.2.2.1, if_false, hd.1, if_true,
      hd.2.1, Bool.false_eq_true, List.foldl_cons]
    rw [ih hL2]
    simp

theorem foldl_digits (c : Nat) :
    (Nat.digits 10 c).reverse.foldl (fun a d => a * 10 + d) 0 = c := by
  rw [List.foldl_reverse]
  have h := Nat.ofDigits_digits 10 c
  rw [Nat.ofDigits_eq_foldr] at h
  conv_rhs => rw [← h]
  congr 1
  funext x y
  simp
  ring

theorem readDigits_toDigits (c : Nat) (hc : 0 < c) :
    readDigits false (Nat.toDigits 10 c) 0 0 false false = some (c, 0, true, []) := by
  rw [toDigits_digits c hc, readDigits_digits _ (fun d hd => by
    rw [List.mem_reverse] at hd
    exact Nat.digits_lt_base (by decide) hd), foldl_digits]
  have : (Nat.digits 10 c).reverse ≠ [] := by
    simp [Nat.digits_eq_nil_iff_eq_zero]
    omega
  cases h : (Nat.digits 10 c).reverse with
  | nil => exact absurd h this
  | cons a t => simp

theorem toDigits_head (c : Nat) (hc : 0 < c) :
    ∃ d t, d < 10 ∧ Nat.toDigits 10 c = Nat.digitChar d :: t := by
  rw [toDigits_digits c hc]
  cases h : (Nat.digits 10 c).reverse with
  | nil =>
    have : (Nat.digits 10 c) = [] := by simpa using h
    rw [Nat.digits_eq_nil_iff_eq_zero] at this
    omega
  | cons a t =>
    refine ⟨a, t.map Nat.digitChar, ?_, by simp⟩
    have hm : a ∈ (Nat.digits 10 c).reverse := by rw [h]; exact List.mem_cons_self _ _
    rw [List.mem_reverse] at hm
    exact Nat.digits_lt_base (by decide) hm

theorem special_numeral (neg : Bool) (c : Nat) (hc : 0 < c) :
    special ((if neg then ['-'] else []) ++ Nat.toDigits 10 c) = none := by
  have hn : 'n' ∉ ((if neg then ['-'] else []) ++ Nat.toDigits 10 c).map Char.toLower := by
    rw [toDigits_digits c hc]
    intro h
    rw [List.mem_map] at h
    obtain ⟨x, hx, hxn⟩ := h
    rw [List.mem_append] at hx
    rcases hx with hx | hx
    · cases neg
      · simp at hx
      · simp at hx
        subst hx
        revert hxn
        decide
    · rw [List.mem_map] at hx
      obtain ⟨d, hd, rfl⟩ := hx
      rw [List.mem_reverse] at hd
      exact (digitChar_facts d (Nat.digits_lt_base (by decide) hd)).2.2.2.2.2.1 hxn
  unfold special
  have k1 : ∀ l : List Char, 'n' ∈ l →
      ((if neg then ['-'] else []) ++ Nat.toDigits 10 c).map Char.toLower ≠ l :=
    fun l hl h => hn (h ▸ hl)
  simp only [k1 "inf".toList (by decide), k1 "infinity".toList (by decide),
    k1 "+inf".toList (by decide), k1 "+infinity".toList (by decide),
    k1 "-inf".toList (by decide), k1 "-infinity".toList (by decide),
    k1 "nan".toList (by decide), or_self, if_false]

theorem hexPrefix_toDigits (c : Nat) (hc : 0 < c) :
    hexPrefix (Nat.toDigits 10 c) = false := by
  rw [toDigits_digits c hc]
  have hall : ∀ d ∈ (Nat.digits 10 c).reverse, d < 10 := fun d hd => by
    rw [List.mem_reverse] at hd
    exact Nat.digits_lt_base (by decide) hd
  generalize (Nat.digits 10 c).reverse = L at hall
  rcases L with _ | ⟨a, _ | ⟨b, _ | ⟨e, t⟩⟩⟩
  · rfl
  · rfl
  · rfl
  · have hb := digitChar_facts b (hall b (by simp))
    simp [hexPrefix, hb.2.2.2.2.2.2.2.1, hb.2.2.2.2.2.2.2.2]

theorem elem_numeral (neg : Bool) (c : Nat) (hc : 0 < c) :
    ((if neg then ['-'] else []) ++ Nat.toDigits 10 c).elem '_' = false := by
  rw [toDigits_digits c hc]
  rw [Bool.eq_false_iff]
  intro h
  rw [List.elem_eq_mem, decide_eq_true_eq, List.mem_append] at h
  rcases h with h | h
  · cases neg
    · simp at h
    · simp at h
  · rw [List.mem_map] at h
    obtain ⟨d, hd, hdx⟩ := h
    rw [List.mem_reverse] at hd
    exact (digitChar_facts d (Nat.digits_lt_base (by decide) hd)).2.2.2.2.2.2.1 hdx

theorem readFloat_numeral (neg : Bool) (c : Nat) (hc : 0 < c) :
    readFloat ((if neg then ['-'] else []) ++ Nat.toDigits 10 c) = some (neg, false, c, 0) := by
  have hu := elem_numeral neg c hc
  have hx := hexPrefix_toDigits c hc
  have hr := readDigits_toDigits c hc
  cases neg with
  | true =>
    simp only [if_true, List.singleton_append] at hu ⊢
    simp only [readFloat, hu]
    simp [hx, hr, readExp]
  | false =>
    obtain ⟨d, t, hd, ht⟩ := toDigits_head c hc
    have hf := digitChar_facts d hd
    simp only [Bool.false_eq_true, if_false, List.nil_append] at hu ⊢
    rw [ht] at hr hx hu
    rw [ht]
    simp only [readFloat, hu]
    simp [hf.2.2.2.1, hf.2.2.2.2.1, hx, hr, readExp]

/-- Reading back a decimal integer numeral. -/
theorem ParseFloat_numeral (neg : Bool) (c : Nat) (hc : 0 < c) :
    ParseFloat (String.mk ((if neg then ['-'] else []) ++ Nat.toDigits 10 c))
      = F64.ofFrac neg c 1 := by
  unfold ParseFloat
  simp only [String.toList, special_numeral neg c hc, readFloat_numeral neg c hc]
  simp

/-- The rendering of a non-zero integer below 10^10 is its decimal numeral. -/
theorem FormatFloat_ofInt (k : Int) (hk0 : k ≠ 0) (hk : k.natAbs < 10 ^ 10) :
    FormatFloat (F64.ofInt k)
      = String.mk ((if decide (k < 0) then ['-'] else []) ++ Nat.toDigits 10 k.natAbs) := by
  have h53 : k.natAbs < 2 ^ 53 := lt_trans hk (by norm_num)
  obtain ⟨j, hj, hb⟩ := ofInt_as_aligned_bound k hk0 h53
  rw [hj]
  exact FormatFloat_fin_int _ _ _ (Nat.pos_of_ne_zero (Int.natAbs_ne_zero.mpr hk0)) hk
    (le_trans (by norm_num) hb)

/-- An integer below 10^10 in magnitude survives rendering and reading back. -/
theorem ParseFloat_FormatFloat_ofInt (k : Int) (hk : k.natAbs < 10 ^ 10) :
    ParseFloat (FormatFloat (F64.ofInt k)) = F64.ofInt k := by
  by_cases hk0 : k = 0
  · subst hk0
    decide
  · rw [FormatFloat_ofInt k hk0 hk,
      ParseFloat_numeral _ _ (Nat.pos_of_ne_zero (Int.natAbs_ne_zero.mpr hk0))]
    rfl

/-! ## The functions on integer amounts -/

theorem GetState_congr (stub stub1 : Ledger) (k : String) (h : stub1 k = stub k) :
    GetState stub1 k = GetState stub k := by
  simp [GetState, h]

theorem GetState_realize_buyer (stub : Ledger) :
    GetState (realize stub).2 "buyer_balance"
      = FormatFloat (F64.sub (ParseFloat (GetState stub "buyer_balance"))
          (ParseFloat (selectedPayment stub))) := by
  simp [GetState, realize_buyer]

theorem GetState_realize_supplier (stub : Ledger) :
    GetState (realize stub).2 "supplier_balance"
      = FormatFloat (F64.add (ParseFloat (GetState stub "supplier_balance"))
          (ParseFloat (selectedPayment stub))) := by
  simp [GetState, realize_supplier]

/-- On integer amounts `realize` is exact: the balances `b` and `s` become `b - p`
and `s + p`. -/
theorem realize_integers (stub : Ledger) (b s p : Int)
    (hb : ParseFloat (GetState stub "buyer_balance") = F64.ofInt b)
    (hs : ParseFloat (GetState stub "supplier_balance") = F64.ofInt s)
    (hp : ParseFloat (selectedPayment stub) = F64.ofInt p)
    (hb53 : b.natAbs < 2 ^ 53) (hs53 : s.natAbs < 2 ^ 53) (hp53 : p.natAbs < 2 ^ 53)
    (hbp : (b - p).natAbs < 10 ^ 10) (hsp : (s + p).natAbs < 10 ^ 10) :
    ParseFloat (GetState (realize stub).2 "buyer_balance") = F64.ofInt (b - p)
      ∧ ParseFloat (GetState (realize stub).2 "supplier_balance") = F64.ofInt (s + p) := by
  have h1 : (b - p).natAbs < 2 ^ 53 := lt_trans hbp (by norm_num)
  have h2 : (s + p).natAbs < 2 ^ 53 := lt_trans hsp (by norm_num)
  rw [GetState_realize_buyer, GetState_realize_supplier, hb, hs, hp,
    sub_ofInt b p hb53 hp53 h1, add_ofInt s p hs53 hp53 h2]
  exact ⟨ParseFloat_FormatFloat_ofInt _ hbp, ParseFloat_FormatFloat_ofInt _ hsp⟩

theorem selectedPayment_cases (stub : Ledger) :
    selectedPayment stub = GetState stub "payment_2s0"
      ∨ selectedPayment stub = GetState stub "payment_2s1"
      ∨ selectedPayment stub = "" := by
  unfold selectedPayment
  split_ifs
  · exact Or.inl rfl
  · exact Or.inr (Or.inl rfl)
  · exact Or.inr (Or.inr rfl)

theorem ParseFloat_empty : ParseFloat "" = F64.ofInt 0 := by decide

theorem Invoke_keeps_payments (stub : Ledger) (fn : String) (args : List String)
    (hfn : fn = "signal" ∨ fn = "realize" ∨ fn = "query") (k : String)
    (hb : k ≠ "buyer_balance") (hs : k ≠ "supplier_balance") (hsig : k ≠ "signal") :
    (Invoke stub fn args).2 k = stub k := by
  rcases hfn with rfl | rfl | rfl
  · rw [Invoke_signal]
    exact signal_keeps stub args k hsig
  · rw [Invoke_realize]
    exact realize_keeps stub k hb hs
  · rw [Invoke_query]

/-- Conservation on integer amounts, for runs of `signal`, `realize` and `query`. -/
theorem invokeAll_integers (calls : List (String × List String)) :
    ∀ (stub stub1 : Ledger) (b s p0 p1 : Int) (P : Nat),
      (∀ c ∈ calls, c.1 = "signal" ∨ c.1 = "realize" ∨ c.1 = "query") →
      ParseFloat (GetState stub "buyer_balance") = F64.ofInt b →
      ParseFloat (GetState stub "supplier_balance") = F64.ofInt s →
      ParseFloat (GetState stub "payment_2s0") = F64.ofInt p0 →
      ParseFloat (GetState stub "payment_2s1") = F64.ofInt p1 →
      p0.natAbs ≤ P → p1.natAbs ≤ P →
      b.natAbs + calls.length * P < 10 ^ 10 →
      s.natAbs + calls.length * P < 10 ^ 10 →
      invokeAll stub calls = some stub1 →
      ∃ b1 s1 : Int,
        ParseFloat (GetState stub1 "buyer_balance") = F64.ofInt b1
          ∧ ParseFloat (GetState stub1 "supplier_balance") = F64.ofInt s1
          ∧ b1 + s1 = b + s
          ∧ b1.natAbs ≤ b.natAbs + calls.length * P
          ∧ s1.natAbs ≤ s.natAbs + calls.length * P := by
  induction calls with
  | nil =>
    intro stub stub1 b s p0 p1 P _ hb hs _ _ _ _ _ _ hrun
    simp only [invokeAll, Option.some.injEq] at hrun
    subst hrun
    exact ⟨b, s, hb, hs, rfl, by simp, by simp⟩
  | cons c rest ih =>
    intro stub stub1 b s p0 p1 P hc hb hs hp0 hp1 hP0 hP1 hB hS hrun
    obtain ⟨fn, args⟩ := c
    have hfn : fn = "signal" ∨ fn = "realize" ∨ fn = "query" :=
      hc (fn, args) (List.mem_cons_self _ _)
    have hrest : ∀ c ∈ rest, c.1 = "signal" ∨ c.1 = "realize" ∨ c.1 = "query" :=
      fun c hmem => hc c (List.mem_cons_of_mem _ hmem)
    rw [List.length_cons, Nat.succ_mul] at hB hS
    rw [List.length_cons, Nat.succ_mul]
    have h1010 : (10 : Nat) ^ 10 < 2 ^ 53 := by norm_num
    -- the state after the first call: the payments are kept, the balances stay integers
    have hkeep0 : GetState (Invoke stub fn args).2 "payment_2s0" = GetState stub "payment_2s0" :=
      GetState_congr _ _ _ (Invoke_keeps_payments stub fn args hfn _ (by decide) (by decide)
        (by decide))
    have hkeep1 : GetState (Invoke stub fn args).2 "payment_2s1" = GetState stub "payment_2s1" :=
      GetState_congr _ _ _ (Invoke_keeps_payments stub fn args hfn _ (by decide) (by decide)
        (by decide))
    have hstep : ∃ b2 s2 : Int,
        ParseFloat (GetState (Invoke stub fn args).2 "buyer_balance") = F64.ofInt b2
          ∧ ParseFloat (GetState (Invoke stub fn args).2 "supplier_balance") = F64.ofInt s2
          ∧ b2 + s2 = b + s ∧ b2.natAbs ≤ b.natAbs + P ∧ s2.natAbs ≤ s.natAbs + P := by
      rcases hfn with rfl | rfl | rfl
      · refine ⟨b, s, ?_, ?_, rfl, by omega, by omega⟩
        · rw [Invoke_signal, GetState_congr _ _ _ (signal_keeps stub args _ (by decide))]
          exact hb
        · rw [Invoke_signal, GetState_congr _ _ _ (signal_keeps stub args _ (by decide))]
          exact hs
      · obtain ⟨p, hp, hpP⟩ : ∃ p : Int,
            ParseFloat (selectedPayment stub) = F64.ofInt p ∧ p.natAbs ≤ P := by
          rcases selectedPayment_cases stub with h | h | h
          · exact ⟨p0, h ▸ hp0, hP0⟩
          · exact ⟨p1, h ▸ hp1, hP1⟩
          · exact ⟨0, h ▸ ParseFloat_empty, by simp⟩
        have hr := realize_integers stub b s p hb hs hp (by omega) (by omega) (by omega)
          (by omega) (by omega)
        rw [Invoke_realize]
        exact ⟨b - p, s + p, hr.1, hr.2, by ring, by omega, by omega⟩
      · refine ⟨b, s, ?_, ?_, rfl, by omega, by omega⟩
        · rw [Invoke_query]
          exact hb
        · rw [Invoke_query]
          exact hs
    obtain ⟨b2, s2, hb2, hs2, hsum, hbb, hss⟩ := hstep
    simp only [invokeAll] at hrun
    rcases hinv : Invoke stub fn args with ⟨resp, stub2⟩
    rw [hinv] at hrun hb2 hs2 hkeep0 hkeep1
    cases resp with
    | Success payload =>
      simp only at hrun hb2 hs2 hkeep0 hkeep1
      obtain ⟨b1, s1, h1, h2, h3, h4, h5⟩ := ih stub2 stub1 b2 s2 p0 p1 P hrest hb2 hs2
        (hkeep0 ▸ hp0) (hkeep1 ▸ hp1) hP0 hP1 (by omega) (by omega) hrun
      exact ⟨b1, s1, h1, h2, by omega, by omega, by omega⟩
    | Error message => simp at hrun

/-! ## C1: conservation of the balance sum -/

/-- C1, counterexample: after `Init` with payment_1 = 10000000000 and
payment_2s0 = 0.5, the calls `signal 0` and `realize` succeed, the stored balances go
from ("1e+10", "0") to ("1e+10", "0.5"), and the sum of the balances changes, from
10000000000 to 10000000000.5. -/
theorem C1_conservation_counterexample :
    (Init emptyLedger ["deploy", "1", "10000000000", "1", "0.5", "1", "0"]).map Prod.fst
        = some (Response.Success "")
      ∧ (ledgerAfterInit ["deploy", "1", "10000000000", "1", "0.5", "1", "0"] "buyer_balance",
          ledgerAfterInit ["deploy", "1", "10000000000", "1", "0.5", "1", "0"] "supplier_balance")
        = (some "1e+10", some "0")
      ∧ (invokeAll (ledgerAfterInit ["deploy", "1", "10000000000", "1", "0.5", "1", "0"])
            [("signal", ["0"]), ("realize", [])]).map
            (fun stub => (stub "buyer_balance", stub "supplier_balance"))
        = some (some "1e+10", some "0.5")
      ∧ (invokeAll (ledgerAfterInit ["deploy", "1", "10000000000", "1", "0.5", "1", "0"])
            [("signal", ["0"]), ("realize", [])]).map balanceSum
        ≠ some (balanceSum (ledgerAfterInit ["deploy", "1", "10000000000", "1", "0.5", "1", "0"]))
      ∧ balanceSum (ledgerAfterInit ["deploy", "1", "10000000000", "1", "0.5", "1", "0"])
        = ParseFloat "10000000000"
      ∧ (invokeAll (ledgerAfterInit ["deploy", "1", "10000000000", "1", "0.5", "1", "0"])
            [("signal", ["0"]), ("realize", [])]).map balanceSum
        = some (ParseFloat "10000000000.5") := by
  decide

/-- C1, amended: take a ledger whose two balances and two second-period payments
read as the integers `b`, `s`, `p0`, `p1`, and a run of `n` successful `signal`,
`realize` and `query` calls, with `|b| + n * P < 10^10` and `|s| + n * P < 10^10` for
a bound `P` of `|p0|` and `|p1|`.  After the run the two balances read as integers
again, each within `n * P` of its start, and their sum is `b + s`.  (Below 2^53 the
integer a balance reads as is unique, by `ofInt_injective`.) -/
theorem C1_conservation_integer_runs (stub stub1 : Ledger)
    (calls : List (String × List String)) (b s p0 p1 : Int) (P : Nat)
    (hcalls : ∀ c ∈ calls, c.1 = "signal" ∨ c.1 = "realize" ∨ c.1 = "query")
    (hb : ParseFloat (GetState stub "buyer_balance") = F64.ofInt b)
    (hs : ParseFloat (GetState stub "supplier_balance") = F64.ofInt s)
    (hp0 : ParseFloat (GetState stub "payment_2s0") = F64.ofInt p0)
    (hp1 : ParseFloat (GetState stub "payment_2s1") = F64.ofInt p1)
    (hP0 : p0.natAbs ≤ P) (hP1 : p1.natAbs ≤ P)
    (hB : b.natAbs + calls.length * P < 10 ^ 10)
    (hS : s.natAbs + calls.length * P < 10 ^ 10)
    (hrun : invokeAll stub calls = some stub1) :
    ∃ b1 s1 : Int,
      ParseFloat (GetState stub1 "buyer_balance") = F64.ofInt b1
        ∧ ParseFloat (GetState stub1 "supplier_balance") = F64.ofInt s1
        ∧ b1 + s1 = b + s
        ∧ b1.natAbs ≤ b.natAbs + calls.length * P
        ∧ s1.natAbs ≤ s.natAbs + calls.length * P :=
  invokeAll_integers calls stub stub1 b s p0 p1 P hcalls hb hs hp0 hp1 hP0 hP1 hB hS hrun

/-- C1, witness: the scenario (balances 180 and 0, payments 50 and 80) and the run
`signal 1`, `realize`, `query payment_1`, `realize`, which succeeds and leaves the
balances "20" and "160": their sum is still 180. -/
theorem C1_conservation_integer_runs_witness :
    (invokeAll scenario
        [("signal", ["1"]), ("realize", []), ("query", ["payment_1"]), ("realize", [])]).map
        (fun stub => (stub "buyer_balance", stub "supplier_balance"))
      = some (some "20", some "160")
    ∧ ∀ stub1 : Ledger,
        invokeAll scenario
            [("signal", ["1"]), ("realize", []), ("query", ["payment_1"]), ("realize", [])]
          = some stub1 →
        ∃ b1 s1 : Int,
          ParseFloat (GetState stub1 "buyer_balance") = F64.ofInt b1
            ∧ ParseFloat (GetState stub1 "supplier_balance") = F64.ofInt s1
            ∧ b1 + s1 = 180 + 0
            ∧ b1.natAbs ≤ 180 + 4 * 80 ∧ s1.natAbs ≤ 0 + 4 * 80 :=
  ⟨by decide, fun stub1 h =>
    C1_conservation_integer_runs scenario stub1
      [("signal", ["1"]), ("realize", []), ("query", ["payment_1"]), ("realize", [])]
      180 0 50 80 80 (by decide) (by decide) (by decide) (by decide) (by decide)
      (by decide) (by decide) (by decide) (by decide) h⟩

/-! ## C2: the state written by Init -/

/-- C2, counterexample: `Init` with payment_1 = 1234567890.5 and payment_2s1 = 0.25
succeeds and stores buyer_balance = "1234567891", which is not the sum 1234567890.75
of the two payments. -/
theorem C2_buyer_balance_counterexample :
    (Init emptyLedger ["deploy", "1", "1234567890.5", "1", "1", "1", "0.25"]).map Prod.fst
        = some (Response.Success "")
      ∧ ledgerAfterInit ["deploy", "1", "1234567890.5", "1", "1", "1", "0.25"] "buyer_balance"
        = some "1234567891"
      ∧ ParseFloat "1234567891"
        ≠ F64.add (ParseFloat "1234567890.5") (ParseFloat "0.25")
      ∧ F64.add (ParseFloat "1234567890.5") (ParseFloat "0.25")
        = ParseFloat "1234567890.75" := by
  decide

/-- C2, amended: every `Init` call with the command `deploy` and six further
arguments succeeds; in the resulting ledger each of the six term fields reads back
exactly as given, supplier_balance is "0", and buyer_balance is the float64 sum of
payment_1 and payment_2s1 rendered with ten significant digits.  When the two
payments read as integers `a` and `c` below 2^53 in magnitude whose sum is below 10^10
in magnitude, buyer_balance reads as exactly `a + c`. -/
theorem C2_Init_state (stub : Ledger) (quantity_1 payment_1 quantity_2s0 payment_2s0
    quantity_2s1 payment_2s1 : String) :
    ∃ stub1 : Ledger,
      Init stub ["deploy", quantity_1, payment_1, quantity_2s0, payment_2s0, quantity_2s1,
          payment_2s1] = some (Response.Success "", stub1)
      ∧ GetState stub1 "quantity_1" = quantity_1 ∧ GetState stub1 "payment_1" = payment_1
      ∧ GetState stub1 "quantity_2s0" = quantity_2s0
      ∧ GetState stub1 "payment_2s0" = payment_2s0
      ∧ GetState stub1 "quantity_2s1" = quantity_2s1
      ∧ GetState stub1 "payment_2s1" = payment_2s1
      ∧ stub1 "supplier_balance" = some "0"
      ∧ stub1 "buyer_balance"
        = some (FormatFloat (F64.add (ParseFloat payment_1) (ParseFloat payment_2s1)))
      ∧ ∀ a c : Int, ParseFloat payment_1 = F64.ofInt a → ParseFloat payment_2s1 = F64.ofInt c →
          a.natAbs < 2 ^ 53 → c.natAbs < 2 ^ 53 → (a + c).natAbs < 10 ^ 10 →
          ParseFloat (GetState stub1 "buyer_balance") = F64.ofInt (a + c) := by
  have key : ∀ st : Ledger,
      st "buyer_balance"
          = some (FormatFloat (F64.add (ParseFloat payment_1) (ParseFloat payment_2s1))) →
      ∀ a c : Int, ParseFloat payment_1 = F64.ofInt a → ParseFloat payment_2s1 = F64.ofInt c →
        a.natAbs < 2 ^ 53 → c.natAbs < 2 ^ 53 → (a + c).natAbs < 10 ^ 10 →
        ParseFloat (GetState st "buyer_balance") = F64.ofInt (a + c) := by
    intro st hst a c ha hc ha53 hc53 hac
    have hg : GetState st "buyer_balance"
        = FormatFloat (F64.add (ParseFloat payment_1) (ParseFloat payment_2s1)) := by
      simp [GetState, hst]
    rw [hg, ha, hc, add_ofInt a c ha53 hc53 (lt_trans hac (by norm_num))]
    exact ParseFloat_FormatFloat_ofInt _ hac
  refine ⟨_, rfl, ?_, ?_, ?_, ?_, ?_, ?_, by simp [PutState],
    by simp [PutState, FormatFloat_ne_empty],
    key _ (by simp [PutState, FormatFloat_ne_empty])⟩
  · by_cases h : quantity_1 = "" <;> simp [GetState, PutState, h]
  · by_cases h : payment_1 = "" <;> simp [GetState, PutState, h]
  · by_cases h : quantity_2s0 = "" <;> simp [GetState, PutState, h]
  · by_cases h : payment_2s0 = "" <;> simp [GetState, PutState, h]
  · by_cases h : quantity_2s1 = "" <;> simp [GetState, PutState, h]
  · by_cases h : payment_2s1 = "" <;> simp [GetState, PutState, h]

/-- C2, witness: `Init` with 10, 100, 5, 50, 8, 80 on the empty ledger succeeds and
stores buyer_balance = "180", which reads as 100 + 80, and supplier_balance = "0". -/
theorem C2_Init_state_witness :
    ∃ stub1 : Ledger,
      Init emptyLedger ["deploy", "10", "100", "5", "50", "8", "80"]
          = some (Response.Success "", stub1)
        ∧ GetState stub1 "quantity_1" = "10"
        ∧ stub1 "buyer_balance" = some "180" ∧ stub1 "supplier_balance" = some "0"
        ∧ ParseFloat (GetState stub1 "buyer_balance") = F64.ofInt (100 + 80) := by
  obtain ⟨stub1, h0, hq, _, _, _, _, _, hsup, hbuy, hint⟩ :=
    C2_Init_state emptyLedger "10" "100" "5" "50" "8" "80"
  exact ⟨stub1, h0, hq, hbuy.trans (by decide), hsup,
    hint 100 80 (by decide) (by decide) (by decide) (by decide) (by decide)⟩

/-- The scenario of C2: `Init` with 10, 100, 5, 50, 8, 80 stores buyer_balance = "180"
and supplier_balance = "0". -/
theorem C2_Init_scenario :
    scenario "buyer_balance" = some "180" ∧ scenario "supplier_balance" = some "0"
      ∧ scenario "quantity_1" = some "10" ∧ scenario "payment_1" = some "100"
      ∧ scenario "quantity_2s0" = some "5" ∧ scenario "payment_2s0" = some "50"
      ∧ scenario "quantity_2s1" = some "8" ∧ scenario "payment_2s1" = some "80"
      ∧ scenario "signal" = none := by
  decide

/-! ## C3: the transfer of sendGoods -/

/-- C3, the code at the scenario of the claim: after `Init` with 10, 100, 5, 50, 8,
80 the call `sendGoods 10` succeeds and leaves buyer_balance = "170" and
supplier_balance = "10" (the quantity, not the payment of 100, is moved). -/
theorem C3_sendGoods_scenario :
    scenario "payment_1" = some "100"
      ∧ scenario "buyer_balance" = some "180" ∧ scenario "supplier_balance" = some "0"
      ∧ (sendGoods scenario ["10"]).1 = Except.ok "Sending goods success"
      ∧ (sendGoods scenario ["10"]).2 "buyer_balance" = some "170"
      ∧ (sendGoods scenario ["10"]).2 "supplier_balance" = some "10" := by
  decide

/-! ## C4: the transfer of realize -/

/-- C4, counterexample: with buyer_balance "1e+10", signal "1" and payment_2s1 = 1.5,
`realize` stores buyer_balance = "9999999998": the buyer loses 2, not 1.5. -/
theorem C4_exact_transfer_counterexample :
    (invokeAll (ledgerAfterInit ["deploy", "1", "9999999999", "1", "0", "1", "1.5"])
        [("signal", ["1"])]).map
        (fun stub => (stub "signal", stub "payment_2s1", stub "buyer_balance"))
      = some (some "1", some "1.5", some "1e+10")
    ∧ (invokeAll (ledgerAfterInit ["deploy", "1", "9999999999", "1", "0", "1", "1.5"])
        [("signal", ["1"]), ("realize", [])]).map (fun stub => stub "buyer_balance")
      = some (some "9999999998")
    ∧ F64.sub (ParseFloat "1e+10") (ParseFloat "9999999998") ≠ ParseFloat "1.5"
    ∧ F64.sub (ParseFloat "1e+10") (ParseFloat "9999999998") = ParseFloat "2" := by
  decide

/-- C4, amended: let `key` be the payment field of the recorded signal, payment_2s0
when the signal is "0" and payment_2s1 when it is "1".  Then `realize` succeeds and
stores as buyer_balance the rendering with ten significant digits of the float64
difference `buyer_balance - payment`, and as supplier_balance that of the float64 sum
`supplier_balance + payment`.  When the two balances and the payment read as integers
`b`, `s`, `p` below 2^53 in magnitude with `b - p` and `s + p` below 10^10 in
magnitude, the new balances read as exactly `b - p` and `s + p`. -/
theorem C4_realize_transfer (stub : Ledger) (key : String)
    (h : GetState stub "signal" = "0" ∧ key = "payment_2s0"
      ∨ GetState stub "signal" = "1" ∧ key = "payment_2s1") :
    (realize stub).1 = Except.ok "Realize the second payment success"
      ∧ (realize stub).2 "buyer_balance"
        = some (FormatFloat (F64.sub (ParseFloat (GetState stub "buyer_balance"))
            (ParseFloat (GetState stub key))))
      ∧ (realize stub).2 "supplier_balance"
        = some (FormatFloat (F64.add (ParseFloat (GetState stub "supplier_balance"))
            (ParseFloat (GetState stub key))))
      ∧ ∀ b s p : Int,
          ParseFloat (GetState stub "buyer_balance") = F64.ofInt b →
          ParseFloat (GetState stub "supplier_balance") = F64.ofInt s →
          ParseFloat (GetState stub key) = F64.ofInt p →
          b.natAbs < 2 ^ 53 → s.natAbs < 2 ^ 53 → p.natAbs < 2 ^ 53 →
          (b - p).natAbs < 10 ^ 10 → (s + p).natAbs < 10 ^ 10 →
          ParseFloat (GetState (realize stub).2 "buyer_balance") = F64.ofInt (b - p)
            ∧ ParseFloat (GetState (realize stub).2 "supplier_balance") = F64.ofInt (s + p) := by
  have hp : selectedPayment stub = GetState stub key := by
    rcases h with ⟨hsig, rfl⟩ | ⟨hsig, rfl⟩
    · simp [selectedPayment, hsig]
    · simp [selectedPayment, hsig]
  refine ⟨rfl, hp ▸ realize_buyer stub, hp ▸ realize_supplier stub, ?_⟩
  intro b s p hb hs hpay hb53 hs53 hp53 hbp hsp
  exact realize_integers stub b s p hb hs (hp ▸ hpay) hb53 hs53 hp53 hbp hsp

/-- C4, witness: in the scenario with signal "0" recorded, `realize` moves 50 (from
180 and 0 to "130" and "50"); with signal "1" recorded it moves 80 (to "100" and
"80", which read as 180 - 80 and 0 + 80). -/
theorem C4_realize_transfer_witness :
    (GetState (signal scenario ["0"]).2 "signal" = "0"
      ∧ (realize (signal scenario ["0"]).2).2 "buyer_balance" = some "130"
      ∧ (realize (signal scenario ["0"]).2).2 "supplier_balance" = some "50")
    ∧ (GetState (signal scenario ["1"]).2 "signal" = "1"
      ∧ (realize (signal scenario ["1"]).2).2 "buyer_balance" = some "100"
      ∧ (realize (signal scenario ["1"]).2).2 "supplier_balance" = some "80"
      ∧ ParseFloat (GetState (realize (signal scenario ["1"]).2).2 "buyer_balance")
        = F64.ofInt (180 - 80)
      ∧ ParseFloat (GetState (realize (signal scenario ["1"]).2).2 "supplier_balance")
        = F64.ofInt (0 + 80)) :=
  ⟨⟨by decide,
      ((C4_realize_transfer (signal scenario ["0"]).2 "payment_2s0"
        (Or.inl ⟨by decide, rfl⟩)).2.1).trans (by decide),
      ((C4_realize_transfer (signal scenario ["0"]).2 "payment_2s0"
        (Or.inl ⟨by decide, rfl⟩)).2.2.1).trans (by decide)⟩,
    ⟨by decide,
      ((C4_realize_transfer (signal scenario ["1"]).2 "payment_2s1"
        (Or.inr ⟨by decide, rfl⟩)).2.1).trans (by decide),
      ((C4_realize_transfer (signal scenario ["1"]).2 "payment_2s1"
        (Or.inr ⟨by decide, rfl⟩)).2.2.1).trans (by decide),
      (C4_realize_transfer (signal scenario ["1"]).2 "payment_2s1"
        (Or.inr ⟨by decide, rfl⟩)).2.2.2 180 0 80 (by decide) (by decide) (by decide)
        (by decide) (by decide) (by decide) (by decide) (by decide)⟩⟩

/-! ## C5: realize before a signal -/

/-- C5, the code where no signal is recorded: in the scenario right after `Init`,
`realize` answers with its success message; and after `Init` with quantity_1 = "10.0"
and `sendGoods 10.0`, a `realize` without signal also succeeds and rewrites the
stored supplier_balance from "10.0" to "10". -/
theorem C5_realize_without_signal :
    scenario "signal" = none
      ∧ (realize scenario).1 = Except.ok "Realize the second payment success"
      ∧ (Invoke scenario "realize" []).1 = Response.Success "Realize the second payment success"
      ∧ (invokeAll (ledgerAfterInit ["deploy", "10.0", "100", "5", "50", "8", "80"])
          [("sendGoods", ["10.0"])]).map (fun stub => (stub "signal", stub "supplier_balance"))
        = some (none, some "10.0")
      ∧ (invokeAll (ledgerAfterInit ["deploy", "10.0", "100", "5", "50", "8", "80"])
          [("sendGoods", ["10.0"]), ("realize", [])]).map
            (fun stub => (stub "signal", stub "supplier_balance"))
        = some (none, some "10") := by
  decide

/-! ## C6: a wrong quantity -/

/-- C6: for every ledger and every argument different from the stored quantity_1,
`sendGoods` fails with the wrong-quantity error and leaves the whole ledger, both
balances included, unchanged; `Invoke` answers with that error. -/
theorem C6_sendGoods_mismatch (stub : Ledger) (arg : String)
    (h : arg ≠ GetState stub "quantity_1") :
    sendGoods stub [arg]
        = (Except.error
            ("Wrong quantity of goods to send: " ++ arg ++ ". Please check you contract."),
          stub)
      ∧ Invoke stub "sendGoods" [arg]
        = (Response.Error
            ("Wrong quantity of goods to send: " ++ arg ++ ". Please check you contract."),
          stub) := by
  have hs : sendGoods stub [arg]
      = (Except.error
          ("Wrong quantity of goods to send: " ++ arg ++ ". Please check you contract."),
        stub) := by
    simp [sendGoods, h]
  refine ⟨hs, ?_⟩
  unfold Invoke
  rw [if_pos rfl, hs]
  rfl

/-- C6, witness: in the scenario (quantity_1 = "10"), `sendGoods 9` is rejected and
the balances stay "180" and "0". -/
theorem C6_sendGoods_mismatch_witness :
    "9" ≠ GetState scenario "quantity_1"
      ∧ (sendGoods scenario ["9"]).1
        = Except.error "Wrong quantity of goods to send: 9. Please check you contract."
      ∧ (sendGoods scenario ["9"]).2 "buyer_balance" = some "180"
      ∧ (sendGoods scenario ["9"]).2 "supplier_balance" = some "0" :=
  ⟨by decide,
    by rw [(C6_sendGoods_mismatch scenario "9" (by decide)).1]; decide,
    by rw [(C6_sendGoods_mismatch scenario "9" (by decide)).1]; decide,
    by rw [(C6_sendGoods_mismatch scenario "9" (by decide)).1]; decide⟩


/-! ## C7: repeated sendGoods -/

theorem sendGoods_match (stub : Ledger) :
    sendGoods stub [GetState stub "quantity_1"]
      = (Except.ok "Sending goods success",
          PutState (PutState stub "supplier_balance" (GetState stub "quantity_1"))
            "buyer_balance"
            (FormatFloat (F64.sub (ParseFloat (GetState stub "buyer_balance"))
              (ParseFloat (GetState stub "quantity_1"))))) := by
  simp [sendGoods]

theorem sendGoods_mismatch (stub : Ledger) (arg : String)
    (h : arg ≠ GetState stub "quantity_1") :
    sendGoods stub [arg]
      = (Except.error
          ("Wrong quantity of goods to send: " ++ arg ++ ". Please check you contract."),
        stub) := by
  simp [sendGoods, h]

theorem sendGoods_ok_arg (stub : Ledger) (arg : String)
    (h : (sendGoods stub [arg]).1 = Except.ok "Sending goods success") :
    arg = GetState stub "quantity_1" := by
  by_contra hne
  rw [sendGoods_mismatch stub arg hne] at h
  cases h

theorem sendGoods_keeps (stub : Ledger) (args : List String) (k : String)
    (hb : k ≠ "buyer_balance") (hs : k ≠ "supplier_balance") :
    (sendGoods stub args).2 k = stub k := by
  rcases args with _ | ⟨a, _ | ⟨b, t⟩⟩
  · rfl
  · by_cases h : a = GetState stub "quantity_1"
    · rw [h, sendGoods_match]
      simp [PutState, hb, hs]
    · rw [sendGoods_mismatch stub a h]
  · rfl

theorem signal_valid (stub : Ledger) (arg : String) (h : arg = "0" ∨ arg = "1") :
    signal stub [arg] = (Except.ok "Signaling success", PutState stub "signal" arg) := by
  simp [signal, h]

theorem signal_arg_ne_empty (arg : String) (h : arg = "0" ∨ arg = "1") : arg ≠ "" := by
  rcases h with rfl | rfl <;> decide

theorem signal_invalid (stub : Ledger) (arg : String) (h0 : arg ≠ "0") (h1 : arg ≠ "1") :
    signal stub [arg] = (Except.error ("Unsupported signal value: " ++ arg), stub) := by
  simp [signal, h0, h1]

/-- C8: a one-argument `signal` call whose argument is neither "0" nor "1" fails with
the unsupported-value error and leaves the ledger, the stored signal included,
unchanged; a call with "0" or "1" on a ledger without a recorded signal succeeds and
stores the argument as the signal. -/
theorem C8_signal_exclusive (stub : Ledger) (arg : String) :
    (arg ≠ "0" → arg ≠ "1" →
      signal stub [arg] = (Except.error ("Unsupported signal value: " ++ arg), stub)
      ∧ Invoke stub "signal" [arg]
        = (Response.Error ("Unsupported signal value: " ++ arg), stub))
    ∧ (arg = "0" ∨ arg = "1" → stub "signal" = none →
      (signal stub [arg]).1 = Except.ok "Signaling success"
      ∧ (signal stub [arg]).2 "signal" = some arg) := by
  constructor
  · intro h0 h1
    refine ⟨signal_invalid stub arg h0 h1, ?_⟩
    unfold Invoke
    rw [if_neg (by decide), if_pos rfl, signal_invalid stub arg h0 h1]
    rfl
  · intro h _
    rw [signal_valid stub arg h]
    exact ⟨rfl, PutState_same stub "signal" arg (signal_arg_ne_empty arg h)⟩

/-- C8, witness: in the scenario, where no signal is recorded, `signal 2` fails and
the signal stays unset, and `signal 1` succeeds and records "1". -/
theorem C8_signal_exclusive_witness :
    ((signal scenario ["2"]).1 = Except.error "Unsupported signal value: 2"
      ∧ (signal scenario ["2"]).2 "signal" = none)
    ∧ (scenario "signal" = none
      ∧ (signal scenario ["1"]).1 = Except.ok "Signaling success"
      ∧ (signal scenario ["1"]).2 "signal" = some "1") :=
  ⟨by rw [((C8_signal_exclusive scenario "2").1 (by decide) (by decide)).1]; decide,
    by decide,
    (C8_signal_exclusive scenario "1").2 (by decide) (by decide)⟩

/-- C9, counterexample: in the scenario with signal "0" recorded, the call `signal 1`
succeeds and the stored signal becomes "1". -/
theorem C9_signal_once_counterexample :
    (signal scenario ["0"]).2 "signal" = some "0"
      ∧ (signal (signal scenario ["0"]).2 ["1"]).1 = Except.ok "Signaling success"
      ∧ (signal (signal scenario ["0"]).2 ["1"]).2 "signal" = some "1" := by
  decide

/-- C9, amended: `signal` does not look at the signal already recorded.  On a ledger
whose signal is "0" or "1", a further call with "0" or "1" succeeds and overwrites
the stored signal with its argument; a call with any other argument fails and leaves
the stored signal unchanged. -/
theorem C9_signal_overwrites (stub : Ledger) (arg : String)
    (h : stub "signal" = some "0" ∨ stub "signal" = some "1") :
    (arg = "0" ∨ arg = "1" →
      (signal stub [arg]).1 = Except.ok "Signaling success"
      ∧ (signal stub [arg]).2 "signal" = some arg)
    ∧ (arg ≠ "0" → arg ≠ "1" →
      (signal stub [arg]).1 = Except.error ("Unsupported signal value: " ++ arg)
      ∧ (signal stub [arg]).2 "signal" = stub "signal"
      ∧ ((signal stub [arg]).2 "signal" = some "0" ∨ (signal stub [arg]).2 "signal" = some "1")) := by
  constructor
  · intro ha
    rw [signal_valid stub arg ha]
    exact ⟨rfl, PutState_same stub "signal" arg (signal_arg_ne_empty arg ha)⟩
  · intro h0 h1
    rw [signal_invalid stub arg h0 h1]
    exact ⟨rfl, rfl, h⟩

/-- C9, witness: with signal "0" recorded in the scenario, `signal 1` overwrites it
with "1", and `signal 2` fails and leaves "0". -/
theorem C9_signal_overwrites_witness :
    (signal scenario ["0"]).2 "signal" = some "0"
      ∧ (signal (signal scenario ["0"]).2 ["1"]).2 "signal" = some "1"
      ∧ (signal (signal scenario ["0"]).2 ["2"]).2 "signal" = some "0" :=
  ⟨by decide,
    ((C9_signal_overwrites (signal scenario ["0"]).2 "1" (Or.inl (by decide))).1
      (by decide)).2,
    (((C9_signal_overwrites (signal scenario ["0"]).2 "2" (Or.inl (by decide))).2
      (by decide) (by decide)).2.1).trans (by decide)⟩

/-! ## C10: calls after realize -/

theorem selectedPayment_realize (stub : Ledger) :
    selectedPayment (realize stub).2 = selectedPayment stub := by
  simp only [selectedPayment]
  rw [GetState_congr _ _ _ (realize_keeps stub "signal" (by decide) (by decide)),
    GetState_congr _ _ _ (realize_keeps stub "payment_2s0" (by decide) (by decide)),
    GetState_congr _ _ _ (realize_keeps stub "payment_2s1" (by decide) (by decide))]

/-- C10, counterexample: in the scenario, after `signal 1` and one `realize` (balances
"100" and "80"), a second `realize` succeeds and moves the payment again (balances
"20" and "160"); `sendGoods 10` and `signal 0` are accepted as well. -/
theorem C10_terminal_state_counterexample :
    (invokeAll scenario [("signal", ["1"]), ("realize", [])]).map
        (fun stub => (stub "buyer_balance", stub "supplier_balance"))
      = some (some "100", some "80")
    ∧ (invokeAll scenario [("signal", ["1"]), ("realize", []), ("realize", [])]).map
        (fun stub => (stub "buyer_balance", stub "supplier_balance"))
      = some (some "20", some "160")
    ∧ (invokeAll scenario [("signal", ["1"]), ("realize", []), ("sendGoods", ["10"])]).map
        (fun stub => (stub "buyer_balance", stub "supplier_balance"))
      = some (some "90", some "10")
    ∧ (invokeAll scenario [("signal", ["1"]), ("realize", []), ("signal", ["0"])]).map
        (fun stub => stub "signal")
      = some (some "0") := by
  decide

/-- C10, amended: there is no terminal state.  After a `realize`, a further `realize`
succeeds and moves the selected payment once more (the balances become the renderings
of `buyer_balance - payment` and `supplier_balance + payment`), `sendGoods` with the
stored quantity_1 succeeds, and `signal` with "0" or with "1" succeeds and stores its
argument. -/
theorem C10_no_terminal_state (stub : Ledger) :
    (realize (realize stub).2).1 = Except.ok "Realize the second payment success"
      ∧ (realize (realize stub).2).2 "buyer_balance"
        = some (FormatFloat (F64.sub (ParseFloat (GetState (realize stub).2 "buyer_balance"))
            (ParseFloat (selectedPayment stub))))
      ∧ (realize (realize stub).2).2 "supplier_balance"
        = some (FormatFloat (F64.add
            (ParseFloat (GetState (realize stub).2 "supplier_balance"))
            (ParseFloat (selectedPayment stub))))
      ∧ (sendGoods (realize stub).2 [GetState stub "quantity_1"]).1
        = Except.ok "Sending goods success"
      ∧ signal (realize stub).2 ["0"]
        = (Except.ok "Signaling success", PutState (realize stub).2 "signal" "0")
      ∧ signal (realize stub).2 ["1"]
        = (Except.ok "Signaling success", PutState (realize stub).2 "signal" "1") := by
  refine ⟨rfl, ?_, ?_, ?_, signal_valid _ _ (Or.inl rfl), signal_valid _ _ (Or.inr rfl)⟩
  · rw [realize_buyer, selectedPayment_realize]
  · rw [realize_supplier, selectedPayment_realize]
  · have hq : GetState stub "quantity_1" = GetState (realize stub).2 "quantity_1" :=
      (GetState_congr _ _ _ (realize_keeps stub "quantity_1" (by decide) (by decide))).symm
    rw [hq, sendGoods_match]

/-! ## C11, C12 and C13: query -/

theorem query_allowed (stub : Ledger) (name : String)
    (h : name = "quantity_1" ∨ name = "payment_1" ∨ name = "quantity_2s0"
      ∨ name = "payment_2s0" ∨ name = "quantity_2s1" ∨ name = "payment_2s1"
      ∨ name = "signal") :
    query stub [name] = (Except.ok (GetState stub name), stub) := by
  simp only [query]
  rw [if_pos h]

theorem query_not_allowed (stub : Ledger) (name : String)
    (h : ¬ (name = "quantity_1" ∨ name = "payment_1" ∨ name = "quantity_2s0"
      ∨ name = "payment_2s0" ∨ name = "quantity_2s1" ∨ name = "payment_2s1"
      ∨ name = "signal")) :
    query stub [name] = (Except.error ("Unsupported item: " ++ name), stub) := by
  simp only [query]
  rw [if_neg h]

theorem Invoke_query_eq (stub : Ledger) (args : List String) :
    Invoke stub "query" args = respond (query stub args) := by
  unfold Invoke
  rw [if_neg (by decide), if_neg (by decide), if_neg (by decide), if_pos rfl]

/-- C11: for every ledger and every argument list, `query` leaves the ledger exactly
as it was, and a second call with the same arguments returns the same result as the
first; the same holds for `query` called through `Invoke`. -/
theorem C11_query_read_only (stub : Ledger) (args : List String) :
    (query stub args).2 = stub
      ∧ (query (query stub args).2 args).1 = (query stub args).1
      ∧ (Invoke stub "query" args).2 = stub
      ∧ (Invoke (Invoke stub "query" args).2 "query" args).1
        = (Invoke stub "query" args).1 := by
  have h1 := query_keeps stub args
  have h2 := Invoke_query stub args
  refine ⟨h1, by rw [h1], h2, by rw [h2]⟩

/-- C12, counterexample: in the scenario buyer_balance = "180" and supplier_balance =
"0" are stored, and `query` rejects both names as unsupported items. -/
theorem C12_query_balances_counterexample :
    scenario "buyer_balance" = some "180" ∧ scenario "supplier_balance" = some "0"
      ∧ (query scenario ["buyer_balance"]).1
        = Except.error "Unsupported item: buyer_balance"
      ∧ (query scenario ["supplier_balance"]).1
        = Except.error "Unsupported item: supplier_balance"
      ∧ (Invoke scenario "query" ["buyer_balance"]).1
        = Response.Error "Unsupported item: buyer_balance" := by
  decide

/-- C12, amended: for each of the seven names quantity_1, payment_1, quantity_2s0,
payment_2s0, quantity_2s1, payment_2s1 and signal that is present in the ledger,
`query` succeeds and returns exactly the stored value, leaving the ledger unchanged;
for buyer_balance and supplier_balance, which are not in the list of the source, it
returns the unsupported-item error. -/
theorem C12_query_returns_stored (stub : Ledger) (name value : String)
    (hname : name = "quantity_1" ∨ name = "payment_1" ∨ name = "quantity_2s0"
      ∨ name = "payment_2s0" ∨ name = "quantity_2s1" ∨ name = "payment_2s1"
      ∨ name = "signal")
    (hvalue : stub name = some value) :
    query stub [name] = (Except.ok value, stub)
      ∧ Invoke stub "query" [name] = (Response.Success value, stub)
      ∧ query stub ["buyer_balance"]
        = (Except.error "Unsupported item: buyer_balance", stub)
      ∧ query stub ["supplier_balance"]
        = (Except.error "Unsupported item: supplier_balance", stub) := by
  have hg : GetState stub name = value := by simp [GetState, hvalue]
  have hq : query stub [name] = (Except.ok value, stub) := by
    rw [query_allowed stub name hname, hg]
  refine ⟨hq, ?_, query_not_allowed stub _ (by decide), query_not_allowed stub _ (by decide)⟩
  rw [Invoke_query_eq, hq]
  rfl

/-- C12, witness: in the scenario `query payment_1` returns "100", and after
`signal 1` the call `query signal` returns "1". -/
theorem C12_query_returns_stored_witness :
    scenario "payment_1" = some "100"
      ∧ query scenario ["payment_1"] = (Except.ok "100", scenario)
      ∧ (query (signal scenario ["1"]).2 ["signal"]).1 = Except.ok "1" :=
  ⟨by decide,
    (C12_query_returns_stored scenario "payment_1" "100" (by decide) (by decide)).1,
    by rw [(C12_query_returns_stored (signal scenario ["1"]).2 "signal" "1" (by decide)
      (by decide)).1]⟩

/-- C13, counterexample: in the scenario no signal is stored and `query signal`
succeeds with the empty string; on the empty ledger `query quantity_1` succeeds with
the empty string too. -/
theorem C13_query_absent_counterexample :
    scenario "signal" = none
      ∧ (query scenario ["signal"]).1 = Except.ok ""
      ∧ (Invoke scenario "query" ["signal"]).1 = Response.Success ""
      ∧ emptyLedger "quantity_1" = none
      ∧ (query emptyLedger ["quantity_1"]).1 = Except.ok "" := by
  decide

/-- C13, amended: for each of the seven names `query` accepts, when the key is absent
from the ledger `query` succeeds and returns the empty string, leaving the ledger
unchanged. -/
theorem C13_query_absent (stub : Ledger) (name : String)
    (hname : name = "quantity_1" ∨ name = "payment_1" ∨ name = "quantity_2s0"
      ∨ name = "payment_2s0" ∨ name = "quantity_2s1" ∨ name = "payment_2s1"
      ∨ name = "signal")
    (habsent : stub name = none) :
    query stub [name] = (Except.ok "", stub)
      ∧ Invoke stub "query" [name] = (Response.Success "", stub) := by
  have hg : GetState stub name = "" := by simp [GetState, habsent]
  have hq : query stub [name] = (Except.ok "", stub) := by
    rw [query_allowed stub name hname, hg]
  refine ⟨hq, ?_⟩
  rw [Invoke_query_eq, hq]
  rfl

/-- C13, witness: the scenario, where the key signal is absent and `query signal`
returns the empty string with success. -/
theorem C13_query_absent_witness :
    scenario "signal" = none
      ∧ (query scenario ["signal"]).1 = Except.ok ""
      ∧ (Invoke scenario "query" ["signal"]).1 = Response.Success "" :=
  ⟨by decide,
    by rw [(C13_query_absent scenario "signal" (by decide) (by decide)).1],
    by rw [(C13_query_absent scenario "signal" (by decide) (by decide)).2]⟩

/-! ## C14 and C15: what Init checks -/

theorem Init_deploy_six (stub : Ledger) (q1 p1 q2s0 p2s0 q2s1 p2s1 : String) :
    Init stub ["deploy", q1, p1, q2s0, p2s0, q2s1, p2s1]
      = some (Response.Success "",
          PutState
            (PutState
              (PutState
                (PutState
                  (PutState
                    (PutState (PutState (PutState stub "quantity_1" q1) "payment_1" p1)
                      "quantity_2s0" q2s0)
                    "payment_2s0" p2s0)
                  "quantity_2s1" q2s1)
                "payment_2s1" p2s1)
              "buyer_balance" (FormatFloat (F64.add (ParseFloat p1) (ParseFloat p2s1))))
            "supplier_balance" "0") := rfl

/-- Every answer of `Init`: success on `deploy` with six further arguments, else one
of its two errors with the ledger untouched. -/
theorem Init_cases (stub : Ledger) (args : List String) (resp : Response) (st : Ledger)
    (h : Init stub args = some (resp, st)) :
    (resp = Response.Success ""
        ∧ ∃ q1 p1 q2s0 p2s0 q2s1 p2s1 : String,
            args = ["deploy", q1, p1, q2s0, p2s0, q2s1, p2s1])
      ∨ (st = stub
        ∧ (resp = Response.Error
              "Incorrect command! This smart contract is for deploying supply chain contracts."
          ∨ resp = Response.Error
              "Incorrect number of arguments! Expecting six parameters for the contract: quantity_1, payment_1, quantity_2s0, payment_2s0, quantity_2s1, payment_2s1.")) := by
  rcases args with _ | ⟨command, params⟩
  · simp [Init] at h
  · by_cases hc : command = "deploy"
    · subst hc
      rcases params with _ | ⟨a, _ | ⟨b, _ | ⟨c, _ | ⟨d, _ | ⟨e, _ | ⟨f, _ | ⟨g, t⟩⟩⟩⟩⟩⟩⟩
      all_goals first
        | (rw [Init_deploy_six] at h
           simp only [Option.some.injEq, Prod.mk.injEq] at h
           exact Or.inl ⟨h.1.symm, a, b, c, d, e, f, rfl⟩)
        | (simp only [Init, ne_eq, not_true_eq_false, if_false, Option.some.injEq,
             Prod.mk.injEq] at h
           exact Or.inr ⟨h.2.symm, Or.inr h.1.symm⟩)
    · simp only [Init, ne_eq, hc, not_false_eq_true, if_true, Option.some.injEq,
        Prod.mk.injEq] at h
      exact Or.inr ⟨h.2.symm, Or.inl h.1.symm⟩

/-- C14, counterexample: `Init` with the six arguments "abc", "-5", "0", "", "-1", "x"
succeeds and stores them: an unparsable quantity, a negative payment and a zero
quantity are accepted, and buyer_balance is "-5". -/
theorem C14_Init_validation_counterexample :
    (Init emptyLedger ["deploy", "abc", "-5", "0", "", "-1", "x"]).map Prod.fst
        = some (Response.Success "")
      ∧ ledgerAfterInit ["deploy", "abc", "-5", "0", "", "-1", "x"] "quantity_1" = some "abc"
      ∧ ledgerAfterInit ["deploy", "abc", "-5", "0", "", "-1", "x"] "payment_1" = some "-5"
      ∧ ledgerAfterInit ["deploy", "abc", "-5", "0", "", "-1", "x"] "quantity_2s0" = some "0"
      ∧ ledgerAfterInit ["deploy", "abc", "-5", "0", "", "-1", "x"] "quantity_2s1" = some "-1"
      ∧ ledgerAfterInit ["deploy", "abc", "-5", "0", "", "-1", "x"] "buyer_balance"
        = some "-5" := by
  decide

/-- C14, amended: `Init` checks the command and the number of arguments and nothing
else.  It succeeds exactly when its first argument is "deploy" and six further
arguments follow, whatever these strings are; on any other non-empty argument list it
fails with the wrong-command or the wrong-count error and writes no field; on the
empty argument list it panics. -/
theorem C14_Init_validation (stub : Ledger) (args : List String) :
    ((∃ st : Ledger, Init stub args = some (Response.Success "", st))
        ↔ ∃ q1 p1 q2s0 p2s0 q2s1 p2s1 : String,
            args = ["deploy", q1, p1, q2s0, p2s0, q2s1, p2s1])
      ∧ (∀ (resp : Response) (st : Ledger), Init stub args = some (resp, st) →
          resp ≠ Response.Success "" →
          st = stub
            ∧ (resp = Response.Error
                  "Incorrect command! This smart contract is for deploying supply chain contracts."
              ∨ resp = Response.Error
                  "Incorrect number of arguments! Expecting six parameters for the contract: quantity_1, payment_1, quantity_2s0, payment_2s0, quantity_2s1, payment_2s1."))
      ∧ (Init stub args = none ↔ args = []) := by
  refine ⟨⟨?_, ?_⟩, ?_, ?_⟩
  · rintro ⟨st, h⟩
    rcases Init_cases stub args _ st h with ⟨_, hargs⟩ | ⟨_, hresp | hresp⟩
    · exact hargs
    · cases hresp
    · cases hresp
  · rintro ⟨q1, p1, q2s0, p2s0, q2s1, p2s1, rfl⟩
    exact ⟨_, Init_deploy_six stub q1 p1 q2s0 p2s0 q2s1 p2s1⟩
  · intro resp st h hne
    rcases Init_cases stub args resp st h with ⟨hs, _⟩ | hr
    · exact absurd hs hne
    · exact hr
  · constructor
    · intro h
      rcases args with _ | ⟨command, params⟩
      · rfl
      · exfalso
        by_cases hc : command = "deploy"
        · subst hc
          rcases params with _ | ⟨a, _ | ⟨b, _ | ⟨c, _ | ⟨d, _ | ⟨e, _ | ⟨f, _ | ⟨g, t⟩⟩⟩⟩⟩⟩⟩ <;>
            simp [Init] at h
        · simp [Init, hc] at h
    · rintro rfl
      rfl

/-- C14, witness: on the empty ledger `Init` succeeds on `deploy` with the six terms
of the scenario, and fails, writing nothing, on five terms and on another command. -/
theorem C14_Init_validation_witness :
    (∃ st : Ledger,
        Init emptyLedger ["deploy", "10", "100", "5", "50", "8", "80"]
          = some (Response.Success "", st))
      ∧ (Init emptyLedger ["deploy", "10", "100", "5", "50", "8"]).map Prod.fst
        = some (Response.Error
            "Incorrect number of arguments! Expecting six parameters for the contract: quantity_1, payment_1, quantity_2s0, payment_2s0, quantity_2s1, payment_2s1.")
      ∧ (∀ (resp : Response) (st : Ledger),
          Init emptyLedger ["install", "10", "100", "5", "50", "8", "80"] = some (resp, st) →
          resp ≠ Response.Success "" → st = emptyLedger) :=
  ⟨(C14_Init_validation emptyLedger ["deploy", "10", "100", "5", "50", "8", "80"]).1.mpr
      ⟨"10", "100", "5", "50", "8", "80", rfl⟩,
    by decide,
    fun resp st h hne =>
      ((C14_Init_validation emptyLedger
        ["install", "10", "100", "5", "50", "8", "80"]).2.1 resp st h hne).1⟩

/-- C15, counterexample: on the scenario, where the terms 10, 100, 5, 50, 8, 80 are
stored, `Init` with the terms 1, 2, 3, 4, 5, 6 succeeds and replaces them; the buyer
balance goes from "180" to "8". -/
theorem C15_Init_again_counterexample :
    scenario "quantity_1" = some "10" ∧ scenario "buyer_balance" = some "180"
      ∧ (Init scenario ["deploy", "1", "2", "3", "4", "5", "6"]).map Prod.fst
        = some (Response.Success "")
      ∧ (Init scenario ["deploy", "1", "2", "3", "4", "5", "6"]).map
          (fun r => (r.2 "quantity_1", r.2 "payment_1", r.2 "buyer_balance",
            r.2 "supplier_balance"))
        = some (some "1", some "2", some "8", some "0") := by
  decide

/-- C15, amended: `Init` does not look at the ledger it is called on.  On every
ledger, also one that already holds the term fields, `Init` with "deploy" and six
arguments succeeds; afterwards each of the six term fields reads back as the argument
given for it, buyer_balance is the rendering of the float64 sum of payment_1 and
payment_2s1, supplier_balance is "0", and every other key, the signal included, is as
it was. -/
theorem C15_Init_overwrites (stub : Ledger) (quantity_1 payment_1 quantity_2s0
    payment_2s0 quantity_2s1 payment_2s1 : String) :
    ∃ stub1 : Ledger,
      Init stub ["deploy", quantity_1, payment_1, quantity_2s0, payment_2s0, quantity_2s1,
          payment_2s1] = some (Response.Success "", stub1)
      ∧ GetState stub1 "quantity_1" = quantity_1 ∧ GetState stub1 "payment_1" = payment_1
      ∧ GetState stub1 "quantity_2s0" = quantity_2s0
      ∧ GetState stub1 "payment_2s0" = payment_2s0
      ∧ GetState stub1 "quantity_2s1" = quantity_2s1
      ∧ GetState stub1 "payment_2s1" = payment_2s1
      ∧ stub1 "supplier_balance" = some "0"
      ∧ stub1 "buyer_balance"
        = some (FormatFloat (F64.add (ParseFloat payment_1) (ParseFloat payment_2s1)))
      ∧ stub1 "signal" = stub "signal"
      ∧ ∀ k : String, k ≠ "quantity_1" → k ≠ "payment_1" → k ≠ "quantity_2s0" →
          k ≠ "payment_2s0" → k ≠ "quantity_2s1" → k ≠ "payment_2s1" →
          k ≠ "buyer_balance" → k ≠ "supplier_balance" → stub1 k = stub k := by
  refine ⟨_, Init_deploy_six stub _ _ _ _ _ _, ?_, ?_, ?_, ?_, ?_, ?_, by simp [PutState],
    by simp [PutState, FormatFloat_ne_empty], by simp [PutState], ?_⟩
  · by_cases h : quantity_1 = "" <;> simp [GetState, PutState, h]
  · by_cases h : payment_1 = "" <;> simp [GetState, PutState, h]
  · by_cases h : quantity_2s0 = "" <;> simp [GetState, PutState, h]
  · by_cases h : payment_2s0 = "" <;> simp [GetState, PutState, h]
  · by_cases h : quantity_2s1 = "" <;> simp [GetState, PutState, h]
  · by_cases h : payment_2s1 = "" <;> simp [GetState, PutState, h]
  · intro k h1 h2 h3 h4 h5 h6 h7 h8
    simp [PutState, h1, h2, h3, h4, h5, h6, h7, h8]

/-- C15, witness: on the scenario with signal "1" recorded, a second `Init` with the
terms 1, 2, 3, 4, 5, 6 succeeds, after which quantity_1 reads "1" and buyer_balance
is "8", and keeps the signal "1". -/
theorem C15_Init_overwrites_witness :
    (signal scenario ["1"]).2 "quantity_1" = some "10"
      ∧ ∃ stub1 : Ledger,
          Init (signal scenario ["1"]).2 ["deploy", "1", "2", "3", "4", "5", "6"]
            = some (Response.Success "", stub1)
          ∧ GetState stub1 "quantity_1" = "1" ∧ stub1 "buyer_balance" = some "8"
          ∧ stub1 "signal" = some "1" := by
  refine ⟨by decide, ?_⟩
  obtain ⟨stub1, h0, hq, _, _, _, _, _, _, hb, hsig, hk⟩ :=
    C15_Init_overwrites (signal scenario ["1"]).2 "1" "2" "3" "4" "5" "6"
  exact ⟨stub1, h0, hq, hb.trans (by decide),
    (hk "signal" (by decide) (by decide) (by decide) (by decide) (by decide) (by decide)
      (by decide) (by decide)).trans (by decide)⟩

/-! ## C16 and C17: what a call leaves untouched -/

theorem respond_snd (r : Except String String × Ledger) : (respond r).2 = r.2 := by
  unfold respond
  cases r.1 <;> rfl

theorem respond_error (r : Except String String × Ledger) (msg : String)
    (h : (respond r).1 = Response.Error msg) : r.1 = Except.error msg := by
  unfold respond at h
  cases hr : r.1 with
  | error e =>
    rw [hr] at h
    simp only [Response.Error.injEq] at h
    rw [h]
  | ok v =>
    rw [hr] at h
    cases h

theorem Invoke_keeps (stub : Ledger) (fn : String) (args : List String) (k : String)
    (hb : k ≠ "buyer_balance") (hs : k ≠ "supplier_balance") (hsig : k ≠ "signal") :
    (Invoke stub fn args).2 k = stub k := by
  unfold Invoke
  split_ifs
  · rw [respond_snd]
    exact sendGoods_keeps stub args k hb hs
  · rw [respond_snd]
    exact signal_keeps stub args k hsig
  · rw [respond_snd]
    exact realize_keeps stub k hb hs
  · rw [respond_snd, query_keeps]
  · rfl

/-- C16: for every ledger and every call of `sendGoods`, `signal`, `realize` or
`query`, made directly or through `Invoke` under any function name and with any
arguments, successful or not, each of the six term fields quantity_1, payment_1,
quantity_2s0, payment_2s0, quantity_2s1 and payment_2s1 is stored afterwards exactly
as before. -/
theorem C16_terms_immutable (stub : Ledger) (fn : String) (args : List String) :
    ((Invoke stub fn args).2 "quantity_1" = stub "quantity_1"
      ∧ (Invoke stub fn args).2 "payment_1" = stub "payment_1"
      ∧ (Invoke stub fn args).2 "quantity_2s0" = stub "quantity_2s0"
      ∧ (Invoke stub fn args).2 "payment_2s0" = stub "payment_2s0"
      ∧ (Invoke stub fn args).2 "quantity_2s1" = stub "quantity_2s1"
      ∧ (Invoke stub fn args).2 "payment_2s1" = stub "payment_2s1")
    ∧ ((sendGoods stub args).2 "quantity_1" = stub "quantity_1"
      ∧ (sendGoods stub args).2 "payment_1" = stub "payment_1"
      ∧ (sendGoods stub args).2 "quantity_2s0" = stub "quantity_2s0"
      ∧ (sendGoods stub args).2 "payment_2s0" = stub "payment_2s0"
      ∧ (sendGoods stub args).2 "quantity_2s1" = stub "quantity_2s1"
      ∧ (sendGoods stub args).2 "payment_2s1" = stub "payment_2s1")
    ∧ ((signal stub args).2 "quantity_1" = stub "quantity_1"
      ∧ (signal stub args).2 "payment_1" = stub "payment_1"
      ∧ (signal stub args).2 "quantity_2s0" = stub "quantity_2s0"
      ∧ (signal stub args).2 "payment_2s0" = stub "payment_2s0"
      ∧ (signal stub args).2 "quantity_2s1" = stub "quantity_2s1"
      ∧ (signal stub args).2 "payment_2s1" = stub "payment_2s1")
    ∧ ((realize stub).2 "quantity_1" = stub "quantity_1"
      ∧ (realize stub).2 "payment_1" = stub "payment_1"
      ∧ (realize stub).2 "quantity_2s0" = stub "quantity_2s0"
      ∧ (realize stub).2 "payment_2s0" = stub "payment_2s0"
      ∧ (realize stub).2 "quantity_2s1" = stub "quantity_2s1"
      ∧ (realize stub).2 "payment_2s1" = stub "payment_2s1")
    ∧ (query stub args).2 = stub := by
  refine ⟨⟨?_, ?_, ?_, ?_, ?_, ?_⟩, ⟨?_, ?_, ?_, ?_, ?_, ?_⟩, ⟨?_, ?_, ?_, ?_, ?_, ?_⟩,
    ⟨?_, ?_, ?_, ?_, ?_, ?_⟩, query_keeps stub args⟩
  all_goals first
    | exact Invoke_keeps stub fn args _ (by decide) (by decide) (by decide)
    | exact sendGoods_keeps stub args _ (by decide) (by decide)
    | exact signal_keeps stub args _ (by decide)
    | exact realize_keeps stub _ (by decide) (by decide)

theorem sendGoods_error_keeps (stub : Ledger) (args : List String) (msg : String)
    (h : (sendGoods stub args).1 = Except.error msg) : (sendGoods stub args).2 = stub := by
  rcases args with _ | ⟨a, _ | ⟨b, t⟩⟩
  · rfl
  · by_cases ha : a = GetState stub "quantity_1"
    · rw [ha, sendGoods_match] at h
      cases h
    · rw [sendGoods_mismatch stub a ha]
  · rfl

theorem signal_error_keeps (stub : Ledger) (args : List String) (msg : String)
    (h : (signal stub args).1 = Except.error msg) : (signal stub args).2 = stub := by
  rcases args with _ | ⟨a, _ | ⟨b, t⟩⟩
  · rfl
  · by_cases ha : a = "0" ∨ a = "1"
    · rw [signal_valid stub a ha] at h
      cases h
    · rw [signal_invalid stub a (fun h0 => ha (Or.inl h0)) (fun h1 => ha (Or.inr h1))]
  · rfl

theorem Invoke_error_keeps (stub : Ledger) (fn : String) (args : List String)
    (msg : String) (st : Ledger) (h : Invoke stub fn args = (Response.Error msg, st)) :
    st = stub := by
  have h1 : (Invoke stub fn args).1 = Response.Error msg := by rw [h]
  have h2 : (Invoke stub fn args).2 = st := by rw [h]
  rw [← h2]
  unfold Invoke at h1 ⊢
  split_ifs at h1 ⊢
  · rw [respond_snd]
    exact sendGoods_error_keeps stub args msg (respond_error _ _ h1)
  · rw [respond_snd]
    exact signal_error_keeps stub args msg (respond_error _ _ h1)
  · have := respond_error _ _ h1
    cases this
  · rw [respond_snd, query_keeps]
  · rfl

/-- C17: every validation error leaves the ledger exactly as it was.  When `Init`
answers with an error, or `Invoke` does under any function name (the four functions
or an unsupported name), or `sendGoods`, `signal`, `query` or `realize` returns an
error itself, the ledger after the call is the ledger before it. -/
theorem C17_error_atomicity (stub : Ledger) (args : List String) :
    (∀ (msg : String) (st : Ledger),
        Init stub args = some (Response.Error msg, st) → st = stub)
      ∧ (∀ (fn msg : String) (st : Ledger),
        Invoke stub fn args = (Response.Error msg, st) → st = stub)
      ∧ (∀ msg : String, (sendGoods stub args).1 = Except.error msg →
        (sendGoods stub args).2 = stub)
      ∧ (∀ msg : String, (signal stub args).1 = Except.error msg →
        (signal stub args).2 = stub)
      ∧ (∀ msg : String, (query stub args).1 = Except.error msg →
        (query stub args).2 = stub)
      ∧ (∀ msg : String, (realize stub).1 = Except.error msg → (realize stub).2 = stub) := by
  refine ⟨?_, ?_, ?_, ?_, ?_, ?_⟩
  · intro msg st h
    rcases Init_cases stub args _ st h with ⟨hs, _⟩ | ⟨hst, _⟩
    · cases hs
    · exact hst
  · intro fn msg st h
    exact Invoke_error_keeps stub fn args msg st h
  · intro msg h
    exact sendGoods_error_keeps stub args msg h
  · intro msg h
    exact signal_error_keeps stub args msg h
  · intro msg _
    exact query_keeps stub args
  · intro msg h
    cases h

/-- C17, witness: in the scenario the rejected calls `sendGoods 9`, `signal 2`,
`query buyer_balance` and the unsupported function `refund` each return their error
and leave the ledger as it was; so does `Init` with a wrong command. -/
theorem C17_error_atomicity_witness :
    ((sendGoods scenario ["9"]).1
        = Except.error "Wrong quantity of goods to send: 9. Please check you contract."
      ∧ (sendGoods scenario ["9"]).2 = scenario)
    ∧ ((signal scenario ["2"]).1 = Except.error "Unsupported signal value: 2"
      ∧ (signal scenario ["2"]).2 = scenario)
    ∧ ((query scenario ["buyer_balance"]).1 = Except.error "Unsupported item: buyer_balance"
      ∧ (query scenario ["buyer_balance"]).2 = scenario)
    ∧ ((Invoke scenario "refund" ["9"]).1 = Response.Error "Unsupported functions: refund"
      ∧ ∀ st : Ledger,
          Invoke scenario "refund" ["9"]
            = (Response.Error "Unsupported functions: refund", st) → st = scenario)
    ∧ ((Init scenario ["install", "9"]).map Prod.fst
        = some (Response.Error
          "Incorrect command! This smart contract is for deploying supply chain contracts.")
      ∧ ∀ st : Ledger,
          Init scenario ["install", "9"]
            = some (Response.Error
              "Incorrect command! This smart contract is for deploying supply chain contracts.",
              st) → st = scenario) :=
  ⟨⟨by decide, (C17_error_atomicity scenario ["9"]).2.2.1
      "Wrong quantity of goods to send: 9. Please check you contract." (by decide)⟩,
    ⟨by decide, (C17_error_atomicity scenario ["2"]).2.2.2.1
      "Unsupported signal value: 2" (by decide)⟩,
    ⟨by decide, (C17_error_atomicity scenario ["buyer_balance"]).2.2.2.2.1
      "Unsupported item: buyer_balance" (by decide)⟩,
    ⟨by decide, fun st h => (C17_error_atomicity scenario ["9"]).2.1 _ _ st h⟩,
    ⟨by decide, fun st h => (C17_error_atomicity scenario ["install", "9"]).1 _ st h⟩⟩

/-! ## C18, C19 and C20: the arithmetic of the balances and sendGoods -/

theorem GetState_sendGoods_buyer (stub : Ledger) :
    GetState (sendGoods stub [GetState stub "quantity_1"]).2 "buyer_balance"
      = FormatFloat (F64.sub (ParseFloat (GetState stub "buyer_balance"))
          (ParseFloat (GetState stub "quantity_1"))) := by
  rw [sendGoods_match]
  exact GetState_PutState_same _ _ _

theorem sendGoods_buyer (stub : Ledger) :
    (sendGoods stub [GetState stub "quantity_1"]).2 "buyer_balance"
      = some (FormatFloat (F64.sub (ParseFloat (GetState stub "buyer_balance"))
          (ParseFloat (GetState stub "quantity_1")))) := by
  rw [sendGoods_match]
  simp [PutState, FormatFloat_ne_empty]

theorem sendGoods_supplier (stub : Ledger) :
    GetState (sendGoods stub [GetState stub "quantity_1"]).2 "supplier_balance"
      = GetState stub "quantity_1" := by
  rw [sendGoods_match, GetState_PutState_other _ _ _ _ (by decide)]
  exact GetState_PutState_same _ _ _

/-- On integer amounts `sendGoods` takes exactly the quantity from the buyer. -/
theorem sendGoods_integers (stub : Ledger) (b q : Int)
    (hb : ParseFloat (GetState stub "buyer_balance") = F64.ofInt b)
    (hq : ParseFloat (GetState stub "quantity_1") = F64.ofInt q)
    (hb53 : b.natAbs < 2 ^ 53) (hq53 : q.natAbs < 2 ^ 53)
    (hbq : (b - q).natAbs < 10 ^ 10) :
    ParseFloat (GetState (sendGoods stub [GetState stub "quantity_1"]).2 "buyer_balance")
      = F64.ofInt (b - q) := by
  rw [GetState_sendGoods_buyer, hb, hq,
    sub_ofInt b q hb53 hq53 (lt_trans hbq (by norm_num))]
  exact ParseFloat_FormatFloat_ofInt _ hbq

/-- C19: on a ledger that stores quantity_1, `sendGoods` with one argument succeeds
if and only if the argument is the stored quantity_1, byte for byte; any other
argument, also one that denotes the same number, is rejected with the wrong-quantity
error and the ledger is left unchanged. -/
theorem C19_sendGoods_string_equality (stub : Ledger) (quantity_1 arg : String)
    (hq : stub "quantity_1" = some quantity_1) :
    ((sendGoods stub [arg]).1 = Except.ok "Sending goods success" ↔ arg = quantity_1)
      ∧ (arg ≠ quantity_1 →
          sendGoods stub [arg]
            = (Except.error
                ("Wrong quantity of goods to send: " ++ arg ++ ". Please check you contract."),
              stub)) := by
  have hg : GetState stub "quantity_1" = quantity_1 := by simp [GetState, hq]
  refine ⟨⟨fun h => ?_, fun h => ?_⟩, fun h => ?_⟩
  · rw [← hg]
    exact sendGoods_ok_arg stub arg h
  · rw [h, ← hg, sendGoods_match]
  · exact sendGoods_mismatch stub arg (by rw [hg]; exact h)

/-- C19, witness: in the scenario (quantity_1 = "10") the argument "10" is accepted,
and "10.0" and "010", which read as the same number as "10", are rejected. -/
theorem C19_sendGoods_string_equality_witness :
    scenario "quantity_1" = some "10"
      ∧ (sendGoods scenario ["10"]).1 = Except.ok "Sending goods success"
      ∧ (ParseFloat "10.0" = ParseFloat "10"
        ∧ (sendGoods scenario ["10.0"]).1
          = Except.error "Wrong quantity of goods to send: 10.0. Please check you contract.")
      ∧ (ParseFloat "010" = ParseFloat "10"
        ∧ (sendGoods scenario ["010"]).1
          = Except.error "Wrong quantity of goods to send: 010. Please check you contract.") :=
  ⟨by decide,
    (C19_sendGoods_string_equality scenario "10" "10" (by decide)).1.mpr rfl,
    ⟨by decide,
      by rw [(C19_sendGoods_string_equality scenario "10" "10.0" (by decide)).2 (by decide)]
         decide⟩,
    ⟨by decide,
      by rw [(C19_sendGoods_string_equality scenario "10" "010" (by decide)).2 (by decide)]
         decide⟩⟩

/-- C20, counterexample: after `Init` with quantity_1 = 0.5 and payment_1 =
10000000000 the buyer balance is "1e+10"; `sendGoods 0.5` succeeds, stores
supplier_balance = "0.5" and leaves buyer_balance = "1e+10": the buyer balance is not
reduced by 0.5. -/
theorem C20_buyer_reduction_counterexample :
    (ledgerAfterInit ["deploy", "0.5", "10000000000", "1", "1", "1", "0"] "quantity_1",
        ledgerAfterInit ["deploy", "0.5", "10000000000", "1", "1", "1", "0"] "buyer_balance")
      = (some "0.5", some "1e+10")
    ∧ (sendGoods (ledgerAfterInit ["deploy", "0.5", "10000000000", "1", "1", "1", "0"])
        ["0.5"]).1 = Except.ok "Sending goods success"
    ∧ (sendGoods (ledgerAfterInit ["deploy", "0.5", "10000000000", "1", "1", "1", "0"])
        ["0.5"]).2 "supplier_balance" = some "0.5"
    ∧ (sendGoods (ledgerAfterInit ["deploy", "0.5", "10000000000", "1", "1", "1", "0"])
        ["0.5"]).2 "buyer_balance" = some "1e+10"
    ∧ F64.sub (ParseFloat "1e+10") (ParseFloat "0.5") ≠ ParseFloat "1e+10" := by
  decide

/-- C20, amended: after every successful `sendGoods` call the supplier_balance read
from the ledger is the stored quantity_1, whatever supplier_balance was before the
call (it is overwritten, not incremented), and the stored buyer_balance is the
rendering with ten significant digits of the float64 difference of the buyer balance
and quantity_1.  When the buyer balance and quantity_1 read as integers `b` and `q`
below 2^53 in magnitude with `b - q` below 10^10 in magnitude, the new buyer balance
reads as exactly `b - q`. -/
theorem C20_sendGoods_overwrites (stub : Ledger) (arg : String)
    (h : (sendGoods stub [arg]).1 = Except.ok "Sending goods success") :
    GetState (sendGoods stub [arg]).2 "supplier_balance" = GetState stub "quantity_1"
      ∧ (∀ previous : String,
          GetState (sendGoods (PutState stub "supplier_balance" previous) [arg]).2
              "supplier_balance"
            = GetState stub "quantity_1")
      ∧ (sendGoods stub [arg]).2 "buyer_balance"
        = some (FormatFloat (F64.sub (ParseFloat (GetState stub "buyer_balance"))
            (ParseFloat (GetState stub "quantity_1"))))
      ∧ ∀ b q : Int,
          ParseFloat (GetState stub "buyer_balance") = F64.ofInt b →
          ParseFloat (GetState stub "quantity_1") = F64.ofInt q →
          b.natAbs < 2 ^ 53 → q.natAbs < 2 ^ 53 → (b - q).natAbs < 10 ^ 10 →
          ParseFloat (GetState (sendGoods stub [arg]).2 "buyer_balance") = F64.ofInt (b - q) := by
  have harg := sendGoods_ok_arg stub arg h
  subst harg
  refine ⟨sendGoods_supplier stub, ?_, sendGoods_buyer stub, ?_⟩
  · intro previous
    have hq : GetState (PutState stub "supplier_balance" previous) "quantity_1"
        = GetState stub "quantity_1" :=
      GetState_PutState_other _ _ _ _ (by decide)
    rw [← hq]
    exact sendGoods_supplier _
  · intro b q hb hq hb53 hq53 hbq
    exact sendGoods_integers stub b q hb hq hb53 hq53 hbq

/-- C20, witness: in the scenario `sendGoods 10` succeeds; the supplier balance
becomes "10", also when it was "999" before the call, and the buyer balance goes from
180 to "170", which reads as 180 - 10. -/
theorem C20_sendGoods_overwrites_witness :
    (sendGoods scenario ["10"]).1 = Except.ok "Sending goods success"
      ∧ GetState (sendGoods scenario ["10"]).2 "supplier_balance" = "10"
      ∧ GetState (sendGoods (PutState scenario "supplier_balance" "999") ["10"]).2
          "supplier_balance" = "10"
      ∧ (sendGoods scenario ["10"]).2 "buyer_balance" = some "170"
      ∧ ParseFloat (GetState (sendGoods scenario ["10"]).2 "buyer_balance")
        = F64.ofInt (180 - 10) :=
  ⟨by decide,
    ((C20_sendGoods_overwrites scenario "10" (by decide)).1).trans (by decide),
    ((C20_sendGoods_overwrites scenario "10" (by decide)).2.1 "999").trans (by decide),
    ((C20_sendGoods_overwrites scenario "10" (by decide)).2.2.1).trans (by decide),
    (C20_sendGoods_overwrites scenario "10" (by decide)).2.2.2 180 10 (by decide) (by decide)
      (by decide) (by decide) (by decide)⟩

end SupplyChain
